import Mathlib

/-!
Verification development for the patent-categorization pipeline
(RFSL extractor, PKG builder, similarity analyzer, feature engine,
CPC taxonomy matcher).

The Python sources are shallowly embedded: dictionaries become
association lists, mutable objects become explicit state records,
Python `str` becomes `String`, Python `int` becomes `Int`/`Nat`,
Python `float` arithmetic is embedded as exact real/rational
arithmetic.
-/

namespace PatentCat

/-! ## Decimal rendering of natural numbers

Model of Python's `str(int)` / f-string formatting for the
non-negative counters used in node ids.  Defined with explicit fuel
so that it is structural (kernel-reducible). -/

def decDigits (fuel : Nat) (n : Nat) : List Char :=
  match fuel with
  | 0 => []
  | fuel + 1 =>
    if n < 10 then [Nat.digitChar n]
    else decDigits fuel (n / 10) ++ [Nat.digitChar (n % 10)]

def natRepr (n : Nat) : String := ⟨decDigits (n + 1) n⟩

/-- Value of a decimal digit character. -/
def digitVal (c : Char) : Nat := c.toNat - 48

/-- Decode a decimal digit string back to a number. -/
def decodeDigits (l : List Char) : Nat :=
  l.foldl (fun a c => 10 * a + digitVal c) 0

theorem digitVal_digitChar {n : Nat} (h : n < 10) :
    digitVal (Nat.digitChar n) = n := by
  interval_cases n <;> decide

theorem digitChar_ne_underscore {n : Nat} (h : n < 10) :
    Nat.digitChar n ≠ '_' := by
  interval_cases n <;> decide

theorem decodeDigits_append (l : List Char) (c : Char) :
    decodeDigits (l ++ [c]) = 10 * decodeDigits l + digitVal c := by
  unfold decodeDigits
  rw [List.foldl_append]
  rfl

theorem decDigits_ne_underscore :
    ∀ (fuel n : Nat), n < fuel → ∀ c ∈ decDigits fuel n, c ≠ '_' := by
  intro fuel
  induction fuel with
  | zero => intro n h; omega
  | succ fuel ih =>
    intro n h c hc
    unfold decDigits at hc
    by_cases h10 : n < 10
    · simp [h10] at hc
      subst hc
      exact digitChar_ne_underscore h10
    · simp [h10] at hc
      rcases hc with hc | hc
      · have hdiv : n / 10 < fuel := by
          have : n / 10 < n := Nat.div_lt_self (by omega) (by omega)
          omega
        exact ih (n / 10) hdiv c hc
      · subst hc
        exact digitChar_ne_underscore (Nat.mod_lt n (by omega))

theorem decodeDigits_decDigits :
    ∀ (fuel n : Nat), n < fuel → decodeDigits (decDigits fuel n) = n := by
  intro fuel
  induction fuel with
  | zero => intro n h; omega
  | succ fuel ih =>
    intro n h
    unfold decDigits
    by_cases h10 : n < 10
    · simp only [h10, if_true]
      show decodeDigits ([] ++ [Nat.digitChar n]) = n
      rw [decodeDigits_append]
      simp [decodeDigits, digitVal_digitChar h10]
    · simp only [h10, if_false]
      rw [decodeDigits_append]
      have hdiv : n / 10 < fuel := by
        have : n / 10 < n := Nat.div_lt_self (by omega) (by omega)
        omega
      rw [ih (n / 10) hdiv, digitVal_digitChar (Nat.mod_lt n (by omega))]
      omega

theorem natRepr_injective {n m : Nat} (h : natRepr n = natRepr m) : n = m := by
  have hd : decDigits (n + 1) n = decDigits (m + 1) m :=
    congrArg String.data h
  have h1 := decodeDigits_decDigits (n + 1) n (by omega)
  have h2 := decodeDigits_decDigits (m + 1) m (by omega)
  rw [hd] at h1
  rw [h1] at h2
  exact h2

theorem natRepr_no_underscore (n : Nat) : ∀ c ∈ (natRepr n).data, c ≠ '_' :=
  decDigits_ne_underscore (n + 1) n (by omega)

/-! ## Node id formatting

`pkg_builder.py`, `add_entity_node`:
`node_id = f"{patent_id}_{entity_type}_{self.entity_counter[entity_text]}"`. -/

def nodeId (patentId entityType : String) (k : Nat) : String :=
  patentId ++ "_" ++ entityType ++ "_" ++ natRepr k

/-- The four entity-kind tags used by the PKG builder. -/
def kindTags : List String := ["R", "F", "S", "L"]

/-- Splitting a list at the last occurrence of a separator is
unambiguous when the tail contains no separator. -/
theorem append_sep_inj {a1 a2 r1 r2 : List Char}
    (h : a1 ++ '_' :: r1 = a2 ++ '_' :: r2)
    (h1 : '_' ∉ r1) (h2 : '_' ∉ r2) : a1 = a2 ∧ r1 = r2 := by
  have hrev : r1.reverse ++ '_' :: a1.reverse = r2.reverse ++ '_' :: a2.reverse := by
    have := congrArg List.reverse h
    simpa using this
  have key : ∀ (x1 x2 y1 y2 : List Char), x1 ++ '_' :: y1 = x2 ++ '_' :: y2 →
      '_' ∉ x1 → '_' ∉ x2 → x1 = x2 ∧ y1 = y2 := by
    intro x1
    induction x1 with
    | nil =>
      intro x2 y1 y2 heq hx1 hx2
      cases x2 with
      | nil => simpa using heq
      | cons c cs =>
        simp at heq
        exfalso
        exact hx2 (heq.1 ▸ List.mem_cons_self c cs)
    | cons c cs ih =>
      intro x2 y1 y2 heq hx1 hx2
      cases x2 with
      | nil =>
        simp at heq
        exfalso
        exact hx1 (heq.1 ▸ List.mem_cons_self c cs)
      | cons d ds =>
        simp at heq
        obtain ⟨hcd, hrest⟩ := heq
        have := ih ds y1 y2 hrest (fun hm => hx1 (List.mem_cons_of_mem c hm))
          (fun hm => hx2 (List.mem_cons_of_mem d hm))
        exact ⟨by rw [hcd, this.1], this.2⟩
  have hr1 : '_' ∉ r1.reverse := by simpa using h1
  have hr2 : '_' ∉ r2.reverse := by simpa using h2
  obtain ⟨ha, hb⟩ := key r1.reverse r2.reverse a1.reverse a2.reverse hrev hr1 hr2
  constructor
  · have := congrArg List.reverse hb; simpa using this
  · have := congrArg List.reverse ha; simpa using this

theorem nodeId_data (p t : String) (k : Nat) :
    (nodeId p t k).data = p.data ++ '_' :: (t.data ++ '_' :: (natRepr k).data) := by
  show (p ++ "_" ++ t ++ "_" ++ natRepr k).data = _
  simp [String.data_append]

theorem kindTag_no_underscore {t : String} (ht : t ∈ kindTags) : '_' ∉ t.data := by
  fin_cases ht <;> decide

/-- Full injectivity of node-id formatting (for kind tags drawn from
`kindTags`): equal id strings force equal patent id, kind and index. -/
theorem nodeId_inj {p1 p2 t1 t2 : String} {k1 k2 : Nat}
    (ht1 : t1 ∈ kindTags) (ht2 : t2 ∈ kindTags)
    (h : nodeId p1 t1 k1 = nodeId p2 t2 k2) :
    p1 = p2 ∧ t1 = t2 ∧ k1 = k2 := by
  have hdata := congrArg String.data h
  rw [nodeId_data, nodeId_data] at hdata
  have hshape1 :
      p1.data ++ '_' :: (t1.data ++ '_' :: (natRepr k1).data)
        = (p1.data ++ '_' :: t1.data) ++ '_' :: (natRepr k1).data := by
    simp
  have hshape2 :
      p2.data ++ '_' :: (t2.data ++ '_' :: (natRepr k2).data)
        = (p2.data ++ '_' :: t2.data) ++ '_' :: (natRepr k2).data := by
    simp
  rw [hshape1, hshape2] at hdata
  have step1 := append_sep_inj hdata
    (fun hm => natRepr_no_underscore k1 '_' hm rfl)
    (fun hm => natRepr_no_underscore k2 '_' hm rfl)
  obtain ⟨hpt, hkd⟩ := step1
  have step2 := append_sep_inj hpt
    (fun hm => kindTag_no_underscore ht1 hm)
    (fun hm => kindTag_no_underscore ht2 hm)
  obtain ⟨hp, htd⟩ := step2
  refine ⟨String.ext hp, String.ext htd, ?_⟩
  exact natRepr_injective (String.ext hkd)

/-! ## Basic string normalization

Models of Python `str.lower()` (character-wise lowering) and
`str.strip()` (trimming surrounding whitespace). -/

def strLower (s : String) : String := ⟨s.data.map Char.toLower⟩

def stripList (l : List Char) : List Char :=
  ((l.dropWhile Char.isWhitespace).reverse.dropWhile Char.isWhitespace).reverse

def strStrip (s : String) : String := ⟨stripList s.data⟩

/-! ## Association lists with Python-dict update semantics

A Python `dict` preserves insertion order; updating an existing key
replaces its value in place. -/

def assocSet {α : Type} (l : List (String × α)) (k : String) (v : α) :
    List (String × α) :=
  match l with
  | [] => [(k, v)]
  | (k', v') :: rest =>
    if k' = k then (k, v) :: rest else (k', v') :: assocSet rest k v

def assocFind {α : Type} (l : List (String × α)) (k : String) : Option α :=
  match l with
  | [] => none
  | (k', v') :: rest => if k' = k then some v' else assocFind rest k

/-! ## PKG builder (`pkg_builder.py`)

The builder object holds a directed graph (node table keyed by node
id, edge table keyed by (source, target)) and the `entity_counter`
defaultdict keyed by normalized entity text. -/

/-- An RFSL entity occurrence as consumed by the PKG builder
(`entity` dict in the Python source).  `category` and `position` are
optional because the builder reads them with
`entity.get('category', '')` / `entity.get('position', -1)`. -/
structure Entity where
  entity : String
  category : Option String
  position : Option Int
deriving Repr, DecidableEq

structure NodeAttrs where
  label : String
  type : String
  patent_id : String
  category : String
  position : Int
deriving Repr, DecidableEq

structure BuilderState where
  graphNodes : List (String × NodeAttrs)
  graphEdges : List ((String × String) × String)
  entityCounter : List (String × Nat)
deriving Repr

def emptyBuilder : BuilderState := ⟨[], [], []⟩

/-- `PKGBuilder.add_entity_node`: normalize the entity text, form the
node id from the per-text running counter, bump the counter, insert
the node (networkx `add_node` overwrites attributes of an existing
id) and return the id. -/
def add_entity_node (e : Entity) (entity_type patent_id : String)
    (s : BuilderState) : String × BuilderState :=
  let entity_text := strStrip (strLower e.entity)
  let k := (assocFind s.entityCounter entity_text).getD 0
  let node_id := nodeId patent_id entity_type k
  (node_id,
   { graphNodes := assocSet s.graphNodes node_id
       { label := entity_text
         type := entity_type
         patent_id := patent_id
         category := e.category.getD ""
         position := e.position.getD (-1) }
     graphEdges := s.graphEdges
     entityCounter := assocSet s.entityCounter entity_text (k + 1) })

/-- The per-entity record kept in the `nodes` lists of
`extract_relations` (id, position, original entity). -/
structure NodeRec where
  id : String
  position : Int
  entity : Entity
deriving Repr

def addEntityList (es : List Entity) (t pid : String) (s : BuilderState) :
    List NodeRec × BuilderState :=
  match es with
  | [] => ([], s)
  | e :: rest =>
    let r := add_entity_node e t pid s
    let rest' := addEntityList rest t pid r.2
    (⟨r.1, e.position.getD (-1), e⟩ :: rest'.1, rest'.2)

/-- One proximity rule: all source/target pairs whose positions lie
strictly within the threshold, in loop order. -/
def rulePairs (src tgt : List NodeRec) (thresh : Int) (rel : String) :
    List ((String × String) × String) :=
  src.flatMap (fun a =>
    (tgt.filter (fun b => |a.position - b.position| < thresh)).map
      (fun b => ((a.id, b.id), rel)))

structure RFSLEntities where
  R : List Entity
  F : List Entity
  S : List Entity
  L : List Entity
deriving Repr

/-- `PKGBuilder.extract_relations`: add all nodes (kinds in R, F, S, L
order), then apply the four proximity rules with thresholds 200, 100,
50, 80. -/
def extract_relations (entities : RFSLEntities) (patent_id : String)
    (s : BuilderState) : List ((String × String) × String) × BuilderState :=
  let nR := addEntityList entities.R "R" patent_id s
  let nF := addEntityList entities.F "F" patent_id nR.2
  let nS := addEntityList entities.S "S" patent_id nF.2
  let nL := addEntityList entities.L "L" patent_id nS.2
  (rulePairs nR.1 nF.1 200 "addresses" ++
   rulePairs nF.1 nS.1 100 "uses" ++
   rulePairs nS.1 nL.1 50 "located_at" ++
   rulePairs nF.1 nL.1 80 "occurs_at", nL.2)

def assocPairSet (l : List ((String × String) × String)) (u v rel : String) :
    List ((String × String) × String) :=
  match l with
  | [] => [((u, v), rel)]
  | (key, r') :: rest =>
    if key = (u, v) then ((u, v), rel) :: rest
    else (key, r') :: assocPairSet rest u v rel

/-- networkx `DiGraph.add_edge`: at most one edge per (source,
target); re-adding overwrites the relation attribute. -/
def addEdge (u v rel : String) (s : BuilderState) : BuilderState :=
  { s with graphEdges := assocPairSet s.graphEdges u v rel }

structure RFSLData where
  patent_id : String
  entities : RFSLEntities
deriving Repr

/-- `PKGBuilder.build_graph_from_rfsl` (graph effect): extract
relations for one patent and add the resulting edges. -/
def build_graph_from_rfsl (d : RFSLData) (s : BuilderState) : BuilderState :=
  let r := extract_relations d.entities d.patent_id s
  r.1.foldl (fun st e => addEdge e.1.1 e.1.2 e.2 st) r.2

/-- Processing a sequence of per-patent RFSL inputs with one builder. -/
def buildAll (files : List RFSLData) : BuilderState :=
  files.foldl (fun s d => build_graph_from_rfsl d s) emptyBuilder

/-! ## Association-list lemmas -/

theorem assocFind_assocSet {α : Type} (l : List (String × α)) (k k' : String)
    (v : α) :
    assocFind (assocSet l k v) k' = if k = k' then some v else assocFind l k' := by
  induction l with
  | nil =>
    by_cases h : k = k' <;> simp [assocSet, assocFind, h]
  | cons hd tl ih =>
    obtain ⟨k0, v0⟩ := hd
    by_cases h0 : k0 = k
    · by_cases h : k = k'
      · simp [assocSet, assocFind, h0, h]
      · simp [assocSet, assocFind, h0, h]
    · by_cases h1 : k0 = k'
      · subst h1
        have : ¬ k = k0 := fun hh => h0 hh.symm
        simp [assocSet, assocFind, h0, this]
      · simp [assocSet, assocFind, h0, h1, ih]

theorem assocFind_mem {α : Type} {l : List (String × α)} {k : String} {v : α}
    (h : assocFind l k = some v) : (k, v) ∈ l := by
  induction l with
  | nil => simp [assocFind] at h
  | cons hd tl ih =>
    obtain ⟨k0, v0⟩ := hd
    by_cases h0 : k0 = k
    · subst h0
      simp [assocFind] at h
      simp [h]
    · simp [assocFind, h0] at h
      exact List.mem_cons_of_mem _ (ih h)

theorem mem_assocSet {α : Type} {l : List (String × α)} {k : String} {v : α}
    {pr : String × α} (h : pr ∈ assocSet l k v) : pr = (k, v) ∨ pr ∈ l := by
  induction l with
  | nil => simpa [assocSet] using h
  | cons hd tl ih =>
    obtain ⟨k0, v0⟩ := hd
    by_cases h0 : k0 = k
    · simp [assocSet, h0] at h
      rcases h with h | h
      · exact Or.inl h
      · exact Or.inr (List.mem_cons_of_mem _ h)
    · simp [assocSet, h0] at h
      rcases h with h | h
      · exact Or.inr (by simp [h])
      · rcases ih h with h' | h'
        · exact Or.inl h'
        · exact Or.inr (List.mem_cons_of_mem _ h')

theorem isSome_assocFind_assocSet {α : Type} {l : List (String × α)}
    {k' : String} (k : String) (v : α) (h : (assocFind l k').isSome) :
    (assocFind (assocSet l k v) k').isSome := by
  rw [assocFind_assocSet]
  by_cases hk : k = k' <;> simp [hk, h]

/-! ## Counter bookkeeping for `add_entity_node` -/

/-- Normalized entity text: `entity['entity'].lower().strip()`. -/
def normText (e : Entity) : String := strStrip (strLower e.entity)

/-- Current value of the `entity_counter` defaultdict for a text. -/
def counterVal (s : BuilderState) (x : String) : Nat :=
  (assocFind s.entityCounter x).getD 0

theorem add_entity_node_fst (e : Entity) (t p : String) (s : BuilderState) :
    (add_entity_node e t p s).1 = nodeId p t (counterVal s (normText e)) := rfl

theorem counterVal_add (e : Entity) (t p : String) (s : BuilderState)
    (x : String) :
    counterVal (add_entity_node e t p s).2 x =
      counterVal s x + (if normText e = x then 1 else 0) := by
  unfold counterVal add_entity_node normText
  simp only [assocFind_assocSet]
  by_cases h : strStrip (strLower e.entity) = x
  · simp [h]
  · simp [h]

/-- Folding a trace of `add_entity_node` calls
(entity, kind, patent_id). -/
def foldAdds (s : BuilderState) (tr : List (Entity × String × String)) :
    BuilderState :=
  tr.foldl (fun st c => (add_entity_node c.1 c.2.1 c.2.2 st).2) s

theorem counterVal_foldAdds (tr : List (Entity × String × String)) :
    ∀ (s : BuilderState) (x : String),
      counterVal (foldAdds s tr) x =
        counterVal s x + tr.countP (fun c => normText c.1 = x) := by
  induction tr with
  | nil => intro s x; simp [foldAdds]
  | cons c rest ih =>
    intro s x
    show counterVal (foldAdds (add_entity_node c.1 c.2.1 c.2.2 s).2 rest) x = _
    rw [ih, counterVal_add]
    rw [List.countP_cons]
    by_cases h : normText c.1 = x
    · simp [h]
      omega
    · simp [h]

/-! ## Claims C1, C10, C2 about the PKG builder -/

/-- C1, counterexample.  The claim asserts that any two distinct entity
occurrences get distinct node ids, including two occurrences in the
same patent with distinct normalized label texts.  In the code the
counter is keyed by normalized text alone, so two fresh distinct texts
in the same patent and kind both receive index 0 and the returned ids
collide: adding "Spar Cap" and then "beam" as Structures of patent
"P1" to a fresh builder returns the id "P1_S_0" twice. -/
theorem node_id_collision_distinct_texts :
    (add_entity_node ⟨"Spar Cap", none, some 5⟩ "S" "P1" emptyBuilder).1
        = "P1_S_0" ∧
    (add_entity_node ⟨"beam", none, some 40⟩ "S" "P1"
        (add_entity_node ⟨"Spar Cap", none, some 5⟩ "S" "P1" emptyBuilder).2).1
        = "P1_S_0" ∧
    (⟨"Spar Cap", none, some 5⟩ : Entity) ≠ ⟨"beam", none, some 40⟩ := by
  refine ⟨by decide, by decide, by decide⟩

/-- C1, amended.  Node ids are formed as
`patent_id + "_" + kind + "_" + counter[normalized text]`.  Two
occurrences whose normalized label texts are EQUAL always receive
distinct node ids (the per-text counter strictly increases), for any
builder state and any interleaving of further `add_entity_node` calls
between the two; uniqueness fails in general for occurrences with
distinct normalized texts (see the counterexample). -/
theorem same_text_node_ids_differ (s : BuilderState) (e1 e2 : Entity)
    (t1 p1 t2 p2 : String) (mid : List (Entity × String × String))
    (ht1 : t1 ∈ kindTags) (ht2 : t2 ∈ kindTags)
    (hnorm : normText e1 = normText e2) :
    (add_entity_node e2 t2 p2
        (foldAdds (add_entity_node e1 t1 p1 s).2 mid)).1
      ≠ (add_entity_node e1 t1 p1 s).1 := by
  intro heq
  rw [add_entity_node_fst, add_entity_node_fst] at heq
  have hinj := nodeId_inj ht2 ht1 heq
  have hcnt := hinj.2.2
  rw [counterVal_foldAdds, counterVal_add, hnorm] at hcnt
  simp at hcnt
  omega

/-- C1 amended, witness: two same-text Structure occurrences of patent
"P1" in a fresh builder, with one unrelated add in between, receive
the ids "P1_S_1" and "P1_S_0", which differ. -/
theorem same_text_node_ids_differ_witness :
    (add_entity_node ⟨" Beam", none, some 7⟩ "S" "P1"
        (foldAdds (add_entity_node ⟨"beam ", none, some 3⟩ "S" "P1"
            emptyBuilder).2
          [(⟨"blade", none, some 9⟩, ("F", "P1"))])).1
      ≠ (add_entity_node ⟨"beam ", none, some 3⟩ "S" "P1" emptyBuilder).1 :=
  same_text_node_ids_differ emptyBuilder ⟨"beam ", none, some 3⟩
    ⟨" Beam", none, some 7⟩ "S" "P1" "S" "P1"
    [(⟨"blade", none, some 9⟩, ("F", "P1"))]
    (by decide) (by decide) (by decide)

/-- C10.  The sequence index in a node id equals the number of entity
occurrences with the same normalized (lowercased, stripped) text
previously added to the same builder, counted across all patents and
all entity kinds; consequently two occurrences in the same patent and
kind with fresh distinct normalized texts both receive index 0, and
the id assigned to an occurrence changes when an earlier patent
already contributed the same text. -/
theorem node_id_sequence_index (tr : List (Entity × String × String))
    (e : Entity) (t p : String) :
    (add_entity_node e t p (foldAdds emptyBuilder tr)).1
        = nodeId p t (tr.countP (fun c => normText c.1 = normText e)) ∧
    (∀ (e1 e2 : Entity) (t' p' : String), normText e1 ≠ normText e2 →
      (add_entity_node e1 t' p' emptyBuilder).1 = nodeId p' t' 0 ∧
      (add_entity_node e2 t' p'
          (add_entity_node e1 t' p' emptyBuilder).2).1 = nodeId p' t' 0) ∧
    (∀ (c : Entity × String × String), normText c.1 = normText e →
      (add_entity_node e t p (foldAdds emptyBuilder [c])).1
        ≠ (add_entity_node e t p emptyBuilder).1 ∨ t ∉ kindTags) := by
  refine ⟨?_, ?_, ?_⟩
  · rw [add_entity_node_fst, counterVal_foldAdds]
    simp [counterVal, emptyBuilder, assocFind]
  · intro e1 e2 t' p' hne
    constructor
    · rw [add_entity_node_fst]
      simp [counterVal, emptyBuilder, assocFind]
    · rw [add_entity_node_fst, counterVal_add]
      simp [counterVal, emptyBuilder, assocFind, hne]
  · intro c hc
    by_cases ht : t ∈ kindTags
    · left
      intro heq
      rw [add_entity_node_fst, add_entity_node_fst] at heq
      have hinj := nodeId_inj ht ht heq
      have hcnt := hinj.2.2
      rw [counterVal_foldAdds] at hcnt
      simp [counterVal, emptyBuilder, assocFind, List.countP_cons, hc] at hcnt
    · right; exact ht

/-- C10, witness: with one prior occurrence of the text "beam" (from a
different patent and kind), a new "beam" Structure node of patent "P2"
gets sequence index 1 and an id that differs from the fresh-builder
id; two fresh distinct texts "spar" and "web" in the same patent and
kind both get index 0. -/
theorem node_id_sequence_index_witness :
    ((add_entity_node ⟨"beam", none, some 4⟩ "S" "P2"
        (foldAdds emptyBuilder [(⟨"Beam ", none, some 1⟩, ("F", "P1"))])).1
      = nodeId "P2" "S"
          ([(⟨"Beam ", none, some 1⟩, ("F", "P1"))].countP
            (fun c => normText c.1 = normText ⟨"beam", none, some 4⟩))) ∧
    ((add_entity_node ⟨"spar", none, none⟩ "S" "P1" emptyBuilder).1
        = nodeId "P1" "S" 0 ∧
     (add_entity_node ⟨"web", none, none⟩ "S" "P1"
        (add_entity_node ⟨"spar", none, none⟩ "S" "P1" emptyBuilder).2).1
        = nodeId "P1" "S" 0) ∧
    ((add_entity_node ⟨"beam", none, some 4⟩ "S" "P2"
        (foldAdds emptyBuilder [(⟨"Beam ", none, some 1⟩, ("F", "P1"))])).1
          ≠ (add_entity_node ⟨"beam", none, some 4⟩ "S" "P2" emptyBuilder).1
      ∨ "S" ∉ kindTags) := by
  refine ⟨?_, ?_, ?_⟩
  · exact (node_id_sequence_index
      [(⟨"Beam ", none, some 1⟩, ("F", "P1"))] ⟨"beam", none, some 4⟩
      "S" "P2").1
  · exact (node_id_sequence_index [] ⟨"beam", none, some 4⟩ "S" "P2").2.1
      ⟨"spar", none, none⟩ ⟨"web", none, none⟩ "S" "P1" (by decide)
  · exact (node_id_sequence_index [] ⟨"beam", none, some 4⟩ "S" "P2").2.2
      (⟨"Beam ", none, some 1⟩, ("F", "P1")) (by decide)

/-- C2.  For a patent with one Requirement and one Function,
`extract_relations` creates exactly one 'addresses' edge between them
when the absolute difference of their char offsets is strictly below
200, and no edge otherwise: the threshold is strict and
boundary-exclusive.  Instantiated below at distances 199 (edge) and
200 (no edge). -/
theorem addresses_edge_strict_threshold (s : BuilderState)
    (patent_id : String) (r f : Entity) :
    ((extract_relations ⟨[r], [f], [], []⟩ patent_id s).1
      = if |r.position.getD (-1) - f.position.getD (-1)| < 200
        then [(((add_entity_node r "R" patent_id s).1,
                (add_entity_node f "F" patent_id
                  (add_entity_node r "R" patent_id s).2).1), "addresses")]
        else []) ∧
    (extract_relations
        ⟨[⟨"improve efficiency", none, some 0⟩],
         [⟨"generate power", none, some 199⟩], [], []⟩ "P9"
        emptyBuilder).1
      = [(("P9_R_0", "P9_F_0"), "addresses")] ∧
    (extract_relations
        ⟨[⟨"improve efficiency", none, some 0⟩],
         [⟨"generate power", none, some 200⟩], [], []⟩ "P9"
        emptyBuilder).1
      = [] := by
  refine ⟨?_, by decide, by decide⟩
  show (let nR := addEntityList [r] "R" patent_id s
        let nF := addEntityList [f] "F" patent_id nR.2
        let nS := addEntityList [] "S" patent_id nF.2
        let nL := addEntityList [] "L" patent_id nS.2
        (rulePairs nR.1 nF.1 200 "addresses" ++
         rulePairs nF.1 nS.1 100 "uses" ++
         rulePairs nS.1 nL.1 50 "located_at" ++
         rulePairs nF.1 nL.1 80 "occurs_at", nL.2)).1 = _
  simp only [addEntityList, rulePairs]
  by_cases h : |r.position.getD (-1) - f.position.getD (-1)| < 200
  · simp [h, add_entity_node_fst]
  · simp [h]

/-! ## Graph invariants for claim C3 -/

/-- A node id is present in the builder's node table. -/
def present (s : BuilderState) (nid : String) : Prop :=
  (assocFind s.graphNodes nid).isSome

/-- Every node id in the table is the rendering of its own
attributes' patent id, one of the four kind tags, and an index. -/
def NodesWf (s : BuilderState) : Prop :=
  ∀ pr ∈ s.graphNodes, ∃ t k, t ∈ kindTags ∧ pr.1 = nodeId pr.2.patent_id t k

/-- Both endpoints of an edge were rendered from one common patent id
and are present in the node table. -/
def EdgeShape (s : BuilderState) (e : (String × String) × String) : Prop :=
  ∃ p t1 k1 t2 k2, t1 ∈ kindTags ∧ t2 ∈ kindTags ∧
    e.1.1 = nodeId p t1 k1 ∧ e.1.2 = nodeId p t2 k2 ∧
    present s e.1.1 ∧ present s e.1.2

def EdgesWf (s : BuilderState) : Prop :=
  ∀ e ∈ s.graphEdges, EdgeShape s e

theorem present_add (e : Entity) (t p : String) (s : BuilderState)
    {nid : String} (h : present s nid) :
    present (add_entity_node e t p s).2 nid :=
  isSome_assocFind_assocSet _ _ h

theorem present_add_self (e : Entity) (t p : String) (s : BuilderState) :
    present (add_entity_node e t p s).2 (add_entity_node e t p s).1 := by
  unfold present
  rw [add_entity_node_fst]
  show (assocFind (assocSet s.graphNodes (nodeId p t (counterVal s (normText e)))
      { label := normText e, type := t, patent_id := p,
        category := e.category.getD "", position := e.position.getD (-1) })
    (nodeId p t (counterVal s (normText e)))).isSome
  rw [assocFind_assocSet]
  simp

theorem graphEdges_add (e : Entity) (t p : String) (s : BuilderState) :
    (add_entity_node e t p s).2.graphEdges = s.graphEdges := rfl

theorem NodesWf_add (e : Entity) {t : String} (p : String) (s : BuilderState)
    (ht : t ∈ kindTags) (hw : NodesWf s) :
    NodesWf (add_entity_node e t p s).2 := by
  intro pr hpr
  rcases mem_assocSet hpr with h | h
  · subst h
    exact ⟨t, counterVal s (normText e), ht, rfl⟩
  · exact hw pr h

theorem addEntityList_graphEdges (es : List Entity) (t p : String) :
    ∀ s : BuilderState,
      (addEntityList es t p s).2.graphEdges = s.graphEdges := by
  induction es with
  | nil => intro s; rfl
  | cons e rest ih =>
    intro s
    show (addEntityList rest t p (add_entity_node e t p s).2).2.graphEdges = _
    rw [ih, graphEdges_add]

theorem addEntityList_present (es : List Entity) (t p : String) :
    ∀ (s : BuilderState) {nid : String}, present s nid →
      present (addEntityList es t p s).2 nid := by
  induction es with
  | nil => intro s nid h; exact h
  | cons e rest ih =>
    intro s nid h
    exact ih _ (present_add e t p s h)

theorem addEntityList_NodesWf (es : List Entity) {t : String} (p : String)
    (ht : t ∈ kindTags) :
    ∀ s : BuilderState, NodesWf s → NodesWf (addEntityList es t p s).2 := by
  induction es with
  | nil => intro s h; exact h
  | cons e rest ih =>
    intro s h
    exact ih _ (NodesWf_add e p s ht h)

theorem addEntityList_recs (es : List Entity) (t p : String) :
    ∀ (s : BuilderState), ∀ r ∈ (addEntityList es t p s).1,
      (∃ k, r.id = nodeId p t k) ∧ present (addEntityList es t p s).2 r.id := by
  induction es with
  | nil => intro s r hr; simp [addEntityList] at hr
  | cons e rest ih =>
    intro s r hr
    have hcons : (addEntityList (e :: rest) t p s).1
        = ⟨(add_entity_node e t p s).1, e.position.getD (-1), e⟩
            :: (addEntityList rest t p (add_entity_node e t p s).2).1 := rfl
    have hsnd : (addEntityList (e :: rest) t p s).2
        = (addEntityList rest t p (add_entity_node e t p s).2).2 := rfl
    rw [hcons, List.mem_cons] at hr
    rw [hsnd]
    rcases hr with hr | hr
    · subst hr
      constructor
      · exact ⟨counterVal s (normText e), add_entity_node_fst e t p s⟩
      · exact addEntityList_present rest t p _ (present_add_self e t p s)
    · exact ih _ r hr

theorem mem_rulePairs {src tgt : List NodeRec} {thresh : Int} {rel : String}
    {x : (String × String) × String} (h : x ∈ rulePairs src tgt thresh rel) :
    ∃ a ∈ src, ∃ b ∈ tgt, x = ((a.id, b.id), rel) := by
  unfold rulePairs at h
  rw [List.mem_flatMap] at h
  obtain ⟨a, ha, hx⟩ := h
  rw [List.mem_map] at hx
  obtain ⟨b, hb, hx⟩ := hx
  exact ⟨a, ha, b, List.mem_of_mem_filter hb, hx.symm⟩

theorem extract_relations_graphEdges (ents : RFSLEntities) (pid : String)
    (s : BuilderState) :
    (extract_relations ents pid s).2.graphEdges = s.graphEdges := by
  show (addEntityList ents.L "L" pid (addEntityList ents.S "S" pid
      (addEntityList ents.F "F" pid
        (addEntityList ents.R "R" pid s).2).2).2).2.graphEdges = s.graphEdges
  rw [addEntityList_graphEdges, addEntityList_graphEdges,
    addEntityList_graphEdges, addEntityList_graphEdges]

theorem extract_relations_present (ents : RFSLEntities) (pid : String)
    (s : BuilderState) {nid : String} (h : present s nid) :
    present (extract_relations ents pid s).2 nid := by
  unfold extract_relations
  exact addEntityList_present _ _ _ _ (addEntityList_present _ _ _ _
    (addEntityList_present _ _ _ _ (addEntityList_present _ _ _ _ h)))

theorem extract_relations_NodesWf (ents : RFSLEntities) (pid : String)
    (s : BuilderState) (h : NodesWf s) :
    NodesWf (extract_relations ents pid s).2 := by
  unfold extract_relations
  exact addEntityList_NodesWf _ _ (by decide) _ (addEntityList_NodesWf _ _
    (by decide) _ (addEntityList_NodesWf _ _ (by decide) _
      (addEntityList_NodesWf _ _ (by decide) _ h)))

def stageR (ents : RFSLEntities) (pid : String) (s : BuilderState) :=
  addEntityList ents.R "R" pid s

def stageF (ents : RFSLEntities) (pid : String) (s : BuilderState) :=
  addEntityList ents.F "F" pid (stageR ents pid s).2

def stageS (ents : RFSLEntities) (pid : String) (s : BuilderState) :=
  addEntityList ents.S "S" pid (stageF ents pid s).2

def stageL (ents : RFSLEntities) (pid : String) (s : BuilderState) :=
  addEntityList ents.L "L" pid (stageS ents pid s).2

theorem extract_relations_stages (ents : RFSLEntities) (pid : String)
    (s : BuilderState) :
    extract_relations ents pid s
      = (rulePairs (stageR ents pid s).1 (stageF ents pid s).1 200 "addresses" ++
         rulePairs (stageF ents pid s).1 (stageS ents pid s).1 100 "uses" ++
         rulePairs (stageS ents pid s).1 (stageL ents pid s).1 50 "located_at" ++
         rulePairs (stageF ents pid s).1 (stageL ents pid s).1 80 "occurs_at",
         (stageL ents pid s).2) := rfl

theorem extract_relations_rels (ents : RFSLEntities) (pid : String)
    (s : BuilderState) :
    ∀ x ∈ (extract_relations ents pid s).1,
      EdgeShape (extract_relations ents pid s).2 x := by
  intro x hx
  rw [extract_relations_stages] at hx ⊢
  set s1 := stageR ents pid s with hs1
  set s2 := stageF ents pid s with hs2
  set s3 := stageS ents pid s with hs3
  set s4 := stageL ents pid s with hs4
  simp only [List.mem_append] at hx
  have presR : ∀ r ∈ s1.1, (∃ k, r.id = nodeId pid "R" k) ∧ present s4.2 r.id := by
    intro r hr
    obtain ⟨hk, hp⟩ := addEntityList_recs ents.R "R" pid s r hr
    exact ⟨hk, addEntityList_present _ _ _ _ (addEntityList_present _ _ _ _
      (addEntityList_present _ _ _ _ hp))⟩
  have presF : ∀ r ∈ s2.1, (∃ k, r.id = nodeId pid "F" k) ∧ present s4.2 r.id := by
    intro r hr
    obtain ⟨hk, hp⟩ := addEntityList_recs ents.F "F" pid s1.2 r hr
    exact ⟨hk, addEntityList_present _ _ _ _ (addEntityList_present _ _ _ _ hp)⟩
  have presS : ∀ r ∈ s3.1, (∃ k, r.id = nodeId pid "S" k) ∧ present s4.2 r.id := by
    intro r hr
    obtain ⟨hk, hp⟩ := addEntityList_recs ents.S "S" pid s2.2 r hr
    exact ⟨hk, addEntityList_present _ _ _ _ hp⟩
  have presL : ∀ r ∈ s4.1, (∃ k, r.id = nodeId pid "L" k) ∧ present s4.2 r.id := by
    intro r hr
    exact addEntityList_recs ents.L "L" pid s3.2 r hr
  have mk : ∀ (a b : NodeRec) (rel t1 t2 : String), t1 ∈ kindTags → t2 ∈ kindTags →
      (∃ k, a.id = nodeId pid t1 k) → (∃ k, b.id = nodeId pid t2 k) →
      present s4.2 a.id → present s4.2 b.id →
      EdgeShape s4.2 ((a.id, b.id), rel) := by
    intro a b rel t1 t2 ht1 ht2 ⟨k1, h1⟩ ⟨k2, h2⟩ hpa hpb
    exact ⟨pid, t1, k1, t2, k2, ht1, ht2, h1, h2, hpa, hpb⟩
  rcases hx with ((h1 | h2) | h3) | h4
  · obtain ⟨a, ha, b, hb, hx⟩ := mem_rulePairs h1
    subst hx
    obtain ⟨hka, hpa⟩ := presR a ha
    obtain ⟨hkb, hpb⟩ := presF b hb
    exact mk a b _ "R" "F" (by decide) (by decide) hka hkb hpa hpb
  · obtain ⟨a, ha, b, hb, hx⟩ := mem_rulePairs h2
    subst hx
    obtain ⟨hka, hpa⟩ := presF a ha
    obtain ⟨hkb, hpb⟩ := presS b hb
    exact mk a b _ "F" "S" (by decide) (by decide) hka hkb hpa hpb
  · obtain ⟨a, ha, b, hb, hx⟩ := mem_rulePairs h3
    subst hx
    obtain ⟨hka, hpa⟩ := presS a ha
    obtain ⟨hkb, hpb⟩ := presL b hb
    exact mk a b _ "S" "L" (by decide) (by decide) hka hkb hpa hpb
  · obtain ⟨a, ha, b, hb, hx⟩ := mem_rulePairs h4
    subst hx
    obtain ⟨hka, hpa⟩ := presF a ha
    obtain ⟨hkb, hpb⟩ := presL b hb
    exact mk a b _ "F" "L" (by decide) (by decide) hka hkb hpa hpb

theorem mem_assocPairSet {l : List ((String × String) × String)}
    {u v rel : String} {e : (String × String) × String}
    (h : e ∈ assocPairSet l u v rel) : e = ((u, v), rel) ∨ e ∈ l := by
  induction l with
  | nil => simpa [assocPairSet] using h
  | cons hd tl ih =>
    obtain ⟨key, r'⟩ := hd
    by_cases hk : key = (u, v)
    · simp [assocPairSet, hk] at h
      rcases h with h | h
      · exact Or.inl h
      · exact Or.inr (List.mem_cons_of_mem _ h)
    · simp [assocPairSet, hk] at h
      rcases h with h | h
      · exact Or.inr (by simp [h])
      · rcases ih h with h' | h'
        · exact Or.inl h'
        · exact Or.inr (List.mem_cons_of_mem _ h')

theorem graphNodes_addEdge (u v rel : String) (s : BuilderState) :
    (addEdge u v rel s).graphNodes = s.graphNodes := rfl

theorem EdgeShape_addEdge {s : BuilderState} {x : (String × String) × String}
    (u v rel : String) (h : EdgeShape s x) : EdgeShape (addEdge u v rel s) x := h

theorem foldAddEdges_inv (rels : List ((String × String) × String)) :
    ∀ (s : BuilderState), NodesWf s → EdgesWf s →
      (∀ x ∈ rels, EdgeShape s x) →
      NodesWf (rels.foldl (fun st e => addEdge e.1.1 e.1.2 e.2 st) s) ∧
      EdgesWf (rels.foldl (fun st e => addEdge e.1.1 e.1.2 e.2 st) s) := by
  induction rels with
  | nil => intro s hn he _; exact ⟨hn, he⟩
  | cons r rest ih =>
    intro s hn he hshape
    have hn' : NodesWf (addEdge r.1.1 r.1.2 r.2 s) := hn
    have he' : EdgesWf (addEdge r.1.1 r.1.2 r.2 s) := by
      intro e hme
      rcases mem_assocPairSet hme with h | h
      · subst h
        exact EdgeShape_addEdge _ _ _ (by
          have := hshape r (List.mem_cons_self r rest)
          obtain ⟨p, t1, k1, t2, k2, ht1, ht2, h1, h2, hp1, hp2⟩ := this
          exact ⟨p, t1, k1, t2, k2, ht1, ht2, h1, h2, hp1, hp2⟩)
      · exact EdgeShape_addEdge _ _ _ (he e h)
    have hshape' : ∀ x ∈ rest, EdgeShape (addEdge r.1.1 r.1.2 r.2 s) x :=
      fun x hx => EdgeShape_addEdge _ _ _ (hshape x (List.mem_cons_of_mem r hx))
    exact ih _ hn' he' hshape'

theorem build_graph_from_rfsl_inv (d : RFSLData) (s : BuilderState)
    (hn : NodesWf s) (he : EdgesWf s) :
    NodesWf (build_graph_from_rfsl d s) ∧ EdgesWf (build_graph_from_rfsl d s) := by
  unfold build_graph_from_rfsl
  have hn1 := extract_relations_NodesWf d.entities d.patent_id s hn
  have he1 : EdgesWf (extract_relations d.entities d.patent_id s).2 := by
    intro e hme
    rw [extract_relations_graphEdges] at hme
    obtain ⟨p, t1, k1, t2, k2, ht1, ht2, h1, h2, hp1, hp2⟩ := he e hme
    exact ⟨p, t1, k1, t2, k2, ht1, ht2, h1, h2,
      extract_relations_present _ _ _ hp1, extract_relations_present _ _ _ hp2⟩
  exact foldAddEdges_inv _ _ hn1 he1
    (extract_relations_rels d.entities d.patent_id s)

theorem buildAll_inv (files : List RFSLData) :
    NodesWf (buildAll files) ∧ EdgesWf (buildAll files) := by
  unfold buildAll
  have key : ∀ (fs : List RFSLData) (s : BuilderState), NodesWf s → EdgesWf s →
      NodesWf (fs.foldl (fun st d => build_graph_from_rfsl d st) s) ∧
      EdgesWf (fs.foldl (fun st d => build_graph_from_rfsl d st) s) := by
    intro fs
    induction fs with
    | nil => intro s hn he; exact ⟨hn, he⟩
    | cons d rest ih =>
      intro s hn he
      obtain ⟨hn', he'⟩ := build_graph_from_rfsl_inv d s hn he
      exact ih _ hn' he'
  exact key files emptyBuilder (by intro pr hpr; simp [emptyBuilder] at hpr)
    (by intro e he; simp [emptyBuilder] at he)

/-- C3.  Over any sequence of per-patent RFSL inputs, every edge of
the merged global graph connects two nodes of the node table whose
`patent_id` attributes agree: the graph never contains cross-patent
edges. -/
theorem no_cross_patent_edges (files : List RFSLData)
    (e : (String × String) × String) (he : e ∈ (buildAll files).graphEdges) :
    ∃ a1 a2, assocFind (buildAll files).graphNodes e.1.1 = some a1 ∧
      assocFind (buildAll files).graphNodes e.1.2 = some a2 ∧
      a1.patent_id = a2.patent_id := by
  obtain ⟨hn, hedges⟩ := buildAll_inv files
  obtain ⟨p, t1, k1, t2, k2, ht1, ht2, h1, h2, hp1, hp2⟩ := hedges e he
  obtain ⟨a1, ha1⟩ := Option.isSome_iff_exists.mp hp1
  obtain ⟨a2, ha2⟩ := Option.isSome_iff_exists.mp hp2
  refine ⟨a1, a2, ha1, ha2, ?_⟩
  have hm1 := assocFind_mem ha1
  have hm2 := assocFind_mem ha2
  obtain ⟨t1', k1', ht1', hid1⟩ := hn _ hm1
  obtain ⟨t2', k2', ht2', hid2⟩ := hn _ hm2
  have e1 : a1.patent_id = p := by
    have := nodeId_inj ht1' ht1 (by rw [← hid1, ← h1])
    exact this.1
  have e2 : a2.patent_id = p := by
    have := nodeId_inj ht2' ht2 (by rw [← hid2, ← h2])
    exact this.1
  rw [e1, e2]

/-- C3, witness: a single patent "P9" with one Requirement and one
nearby Function produces the edge ("P9_R_0", "P9_F_0"); both endpoint
attributes carry patent_id "P9". -/
theorem no_cross_patent_edges_witness :
    (("P9_R_0", "P9_F_0"), "addresses")
        ∈ (buildAll [⟨"P9", ⟨[⟨"improve efficiency", none, some 0⟩],
            [⟨"generate power", none, some 50⟩], [], []⟩⟩]).graphEdges ∧
    ∃ a1 a2,
      assocFind (buildAll [⟨"P9", ⟨[⟨"improve efficiency", none, some 0⟩],
          [⟨"generate power", none, some 50⟩], [], []⟩⟩]).graphNodes
          (("P9_R_0", "P9_F_0"), "addresses").1.1 = some a1 ∧
      assocFind (buildAll [⟨"P9", ⟨[⟨"improve efficiency", none, some 0⟩],
          [⟨"generate power", none, some 50⟩], [], []⟩⟩]).graphNodes
          (("P9_R_0", "P9_F_0"), "addresses").1.2 = some a2 ∧
      a1.patent_id = a2.patent_id :=
  ⟨by decide,
   no_cross_patent_edges
     [⟨"P9", ⟨[⟨"improve efficiency", none, some 0⟩],
        [⟨"generate power", none, some 50⟩], [], []⟩⟩]
     (("P9_R_0", "P9_F_0"), "addresses") (by decide)⟩

/-! ## RFSL extractor (`rfsl_extractor.py`)

Literal case-insensitive substring search with the semantics of
`re.finditer(re.escape(pat), text)`: leftmost matches, non-overlapping
(after a match of length L at i the scan resumes at i + L).  Defined
with explicit fuel (the text length) so it is kernel-reducible. -/

def findFromAux (pat : List Char) (fuel : Nat) (text : List Char) (i : Nat) :
    List Nat :=
  match fuel, text with
  | 0, _ => []
  | _, [] => []
  | fuel + 1, c :: rest =>
    if pat.isPrefixOf (c :: rest) then
      i :: findFromAux pat fuel (List.drop (pat.length - 1) rest) (i + pat.length)
    else
      findFromAux pat fuel rest (i + 1)

def findOccurrences (pat text : List Char) : List Nat :=
  findFromAux pat text.length text 0

/-- An entity occurrence as produced by `extract_structures` /
`extract_locations` (`{entity, type, category, position}`). -/
structure Occurrence where
  entity : String
  type : String
  category : String
  position : Nat
deriving Repr, DecidableEq

/-- The deduplication loop shared by the extractors: keep the first
entry for each (lowercased text, position) key. -/
def dedupOccs (seen : List (String × Nat)) : List Occurrence → List Occurrence
  | [] => []
  | e :: rest =>
    if (strLower e.entity, e.position) ∈ seen then dedupOccs seen rest
    else e :: dedupOccs ((strLower e.entity, e.position) :: seen) rest

/-- `STRUCTURES` from `domain_dictionaries.py` (category → surface
variants), in source order. -/
def STRUCTURES : List (String × List String) :=
  [("blade", ["blade", "aspa", "pala", "rotor blade", "wind turbine blade"]),
   ("airfoil", ["airfoil", "perfil aerodinámico", "aerodynamic profile", "aerofoil"]),
   ("spar", ["spar", "viga principal", "main spar", "spar cap", "larguero", "beam"]),
   ("skin", ["skin", "shell", "revestimiento", "carcasa", "cubierta", "covering"]),
   ("web", ["web", "shear web", "alma", "structural web"]),
   ("core", ["core", "núcleo", "foam core", "structural core"]),
   ("root", ["root", "raíz", "blade root", "root section", "root end"]),
   ("tip", ["tip", "punta", "blade tip", "tip section", "tip end"]),
   ("mid_span", ["mid-span", "mid span", "sección media", "middle section", "midspan"]),
   ("leading_edge", ["leading edge", "borde de ataque", "front edge", "forward edge"]),
   ("trailing_edge", ["trailing edge", "borde de salida", "rear edge", "aft edge"]),
   ("pressure_side", ["pressure side", "lado de presión", "intrados", "lower surface"]),
   ("suction_side", ["suction side", "lado de succión", "extrados", "upper surface"]),
   ("pitch_system", ["pitch system", "sistema de pitch", "pitch mechanism", "pitch control"]),
   ("pitch_bearing", ["pitch bearing", "rodamiento de pitch", "pitch bearing assembly"]),
   ("actuator", ["actuator", "actuador", "drive mechanism"]),
   ("lightning_receptor", ["lightning receptor", "receptor de rayos", "lightning protection", "lightning conductor"]),
   ("de_icing_system", ["de-icing system", "anti-icing", "sistema anti-hielo", "ice protection"]),
   ("heating_element", ["heating element", "elemento calefactor", "resistencia", "heater"]),
   ("protective_coating", ["protective coating", "recubrimiento protector", "coating", "protective layer"]),
   ("fiberglass", ["fiberglass", "glass fiber", "fibra de vidrio", "glass fibre"]),
   ("carbon_fiber", ["carbon fiber", "fibra de carbono", "carbon fibre"]),
   ("epoxy_resin", ["epoxy", "epoxy resin", "resina epoxi", "resin"]),
   ("composite", ["composite", "composite material", "material compuesto"]),
   ("foam", ["foam", "espuma", "foam material"]),
   ("reinforcement", ["reinforcement", "refuerzo", "reinforcing"]),
   ("bolt", ["bolt", "perno", "tornillo", "fastener"]),
   ("adhesive", ["adhesive", "adhesivo", "bonding agent", "glue"]),
   ("flange", ["flange", "brida"]),
   ("insert", ["insert", "inserto", "bushing"])]

/-- `LOCATION_TERMS` from `domain_dictionaries.py`. -/
def LOCATION_TERMS : List (String × List String) :=
  [("spanwise", ["at the root", "en la raíz", "root portion", "root region",
      "at the tip", "en la punta", "tip region", "tip portion",
      "mid-span", "at mid-span", "en la sección media",
      "inboard", "outboard", "inboard section", "outboard section"]),
   ("chordwise", ["at the leading edge", "en el borde de ataque", "leading edge region",
      "at the trailing edge", "en el borde de salida", "trailing edge region",
      "at quarter chord", "al cuarto de cuerda"]),
   ("sides", ["pressure side", "lado de presión", "suction side", "lado de succión",
      "upper surface", "superficie superior", "lower surface", "superficie inferior"]),
   ("vertical", ["upper", "superior", "top", "lower", "inferior", "bottom",
      "middle", "medio"]),
   ("depth", ["outer surface", "superficie exterior", "inner surface", "superficie interior",
      "outer layer", "capa exterior", "inner layer", "capa interior",
      "within", "dentro de", "inside"]),
   ("relations", ["adjacent to", "adyacente a", "between", "entre",
      "along", "a lo largo de", "through", "a través de",
      "parallel to", "paralelo a", "perpendicular to", "perpendicular a",
      "near", "cerca de", "proximate to"])]

/-- Shared body of `extract_structures` / `extract_locations`: for
each (category, variant), if the lowercased variant occurs in the
lowercased text, record an occurrence at every (non-overlapping) match
position; finally deduplicate by (lowercased text, position). -/
def extractByLexicon (lexicon : List (String × List String)) (tag : String)
    (text : String) : List Occurrence :=
  let text_lower := (strLower text).data
  let found := lexicon.flatMap (fun cv =>
    cv.2.flatMap (fun variant =>
      let occs := findOccurrences (strLower variant).data text_lower
      if occs ≠ [] then
        occs.map (fun p => ⟨variant, tag, cv.1, p⟩)
      else []))
  dedupOccs [] found

def extract_structures (text : String) : List Occurrence :=
  extractByLexicon STRUCTURES "Structure" text

def extract_locations (text : String) : List Occurrence :=
  extractByLexicon LOCATION_TERMS "Location" text

/-! ## `extract_from_patent`

The two regex-based extractors (`extract_requirements`,
`extract_functions`) exercise the Python `re` engine and are taken as
parameters of the embedding; `extract_from_patent` itself is embedded
faithfully: which concatenated text view feeds which extractor, the
field defaulting (`patent_data.get(..., default)`), the 10000-char
truncation of the description, and the result record. -/

structure PatentRecord where
  patent_id : Option String
  title : Option String
  abstract : Option String
  claims : Option (List String)
  description : Option String
deriving Repr, DecidableEq

/-- Python `" ".join(l)`. -/
def joinSpace : List String → String
  | [] => ""
  | [x] => x
  | x :: rest => x ++ " " ++ joinSpace rest

/-- Python `s[:n]` (first n characters). -/
def strTake (s : String) (n : Nat) : String := ⟨s.data.take n⟩

structure ExtractResult (α β : Type) where
  patent_id : Option String
  R : List α
  F : List β
  S : List Occurrence
  L : List Occurrence
  total_entities : Nat
  R_count : Nat
  F_count : Nat
  S_count : Nat
  L_count : Nat
  title_len : Nat
  abstract_len : Nat
  claims_len : Nat
  description_len : Nat

def extract_from_patent {α β : Type} (extract_requirements : String → List α)
    (extract_functions : String → List β) (patent_data : PatentRecord) :
    ExtractResult α β :=
  let title := patent_data.title.getD ""
  let abstract := patent_data.abstract.getD ""
  let claims := joinSpace (patent_data.claims.getD [])
  let description := strTake (patent_data.description.getD "") 10000
  let full_text := title ++ " " ++ abstract ++ " " ++ claims ++ " " ++ description
  let eR := extract_requirements (abstract ++ " " ++ title)
  let eF := extract_functions full_text
  let eS := extract_structures full_text
  let eL := extract_locations full_text
  { patent_id := patent_data.patent_id
    R := eR, F := eF, S := eS, L := eL
    total_entities := eR.length + eF.length + eS.length + eL.length
    R_count := eR.length, F_count := eF.length
    S_count := eS.length, L_count := eL.length
    title_len := title.length, abstract_len := abstract.length
    claims_len := claims.length, description_len := description.length }

/-! ## Correctness of the substring scan -/

theorem findFromAux_sound {pat : List Char} (hpat : pat ≠ []) :
    ∀ (fuel : Nat) (text : List Char) (i : Nat), ∀ p ∈ findFromAux pat fuel text i,
      ∃ j, p = i + j ∧ pat <+: text.drop j := by
  intro fuel
  induction fuel with
  | zero => intro text i p hp; simp [findFromAux] at hp
  | succ fuel ih =>
    intro text i p hp
    cases text with
    | nil => simp [findFromAux] at hp
    | cons c rest =>
      simp only [findFromAux] at hp
      by_cases hm : pat.isPrefixOf (c :: rest)
      · rw [if_pos hm] at hp
        rw [List.mem_cons] at hp
        rcases hp with rfl | hp
        · exact ⟨0, by omega, by simpa using List.isPrefixOf_iff_prefix.mp hm⟩
        · obtain ⟨j, hj, hocc⟩ := ih _ _ _ hp
          refine ⟨pat.length + j, by omega, ?_⟩
          rw [List.drop_drop] at hocc
          have hlen : 1 ≤ pat.length := by
            cases pat with
            | nil => exact absurd rfl hpat
            | cons a l => simp
          have hstep : (c :: rest).drop (pat.length + j)
              = rest.drop (pat.length - 1 + j) := by
            have : pat.length + j = (pat.length - 1 + j) + 1 := by omega
            rw [this]
            rfl
          rw [hstep]
          exact hocc
      · rw [if_neg hm] at hp
        obtain ⟨j, hj, hocc⟩ := ih _ _ _ hp
        exact ⟨j + 1, by omega, by simpa using hocc⟩

theorem findFromAux_complete {pat : List Char} (hpat : pat ≠ []) :
    ∀ (fuel : Nat) (text : List Char) (i : Nat), text.length ≤ fuel →
      findFromAux pat fuel text i = [] → ∀ p, ¬ pat <+: text.drop p := by
  intro fuel
  induction fuel with
  | zero =>
    intro text i hlen hemp p hpre
    have htext : text = [] := List.eq_nil_of_length_eq_zero (by omega)
    subst htext
    rw [List.drop_nil] at hpre
    exact hpat (List.prefix_nil.mp hpre)
  | succ fuel ih =>
    intro text i hlen hemp p hpre
    cases text with
    | nil =>
      rw [List.drop_nil] at hpre
      exact hpat (List.prefix_nil.mp hpre)
    | cons c rest =>
      simp only [findFromAux] at hemp
      by_cases hm : pat.isPrefixOf (c :: rest)
      · rw [if_pos hm] at hemp
        simp at hemp
      · rw [if_neg hm] at hemp
        cases p with
        | zero =>
          rw [List.drop_zero] at hpre
          exact hm (List.isPrefixOf_iff_prefix.mpr hpre)
        | succ q =>
          exact ih rest (i + 1) (by simpa using Nat.le_of_succ_le_succ hlen)
            hemp q (by simpa using hpre)

/-! ## Deduplication lemmas -/

theorem dedupOccs_subset :
    ∀ (l : List Occurrence) (seen : List (String × Nat)),
      ∀ e ∈ dedupOccs seen l, e ∈ l := by
  intro l
  induction l with
  | nil => intro seen e he; simp [dedupOccs] at he
  | cons a rest ih =>
    intro seen e he
    simp only [dedupOccs] at he
    by_cases hs : (strLower a.entity, a.position) ∈ seen
    · rw [if_pos hs] at he
      exact List.mem_cons_of_mem _ (ih seen e he)
    · rw [if_neg hs] at he
      rw [List.mem_cons] at he
      rcases he with rfl | he
      · exact List.mem_cons_self _ _
      · exact List.mem_cons_of_mem _ (ih _ e he)

theorem dedupOccs_covers :
    ∀ (l : List Occurrence) (seen : List (String × Nat)) (κ : String × Nat),
      (∃ e ∈ l, (strLower e.entity, e.position) = κ) →
      κ ∈ seen ∨ ∃ e ∈ dedupOccs seen l, (strLower e.entity, e.position) = κ := by
  intro l
  induction l with
  | nil => intro seen κ h; simp at h
  | cons a rest ih =>
    intro seen κ h
    obtain ⟨e, he, hκ⟩ := h
    simp only [dedupOccs]
    by_cases hs : (strLower a.entity, a.position) ∈ seen
    · rw [if_pos hs]
      rw [List.mem_cons] at he
      rcases he with rfl | he
      · exact Or.inl (hκ ▸ hs)
      · exact ih seen κ ⟨e, he, hκ⟩
    · rw [if_neg hs]
      rw [List.mem_cons] at he
      rcases he with rfl | he
      · exact Or.inr ⟨e, List.mem_cons_self _ _, hκ⟩
      · rcases ih ((strLower a.entity, a.position) :: seen) κ ⟨e, he, hκ⟩ with hin | hout
        · rw [List.mem_cons] at hin
          rcases hin with rfl | hin
          · exact Or.inr ⟨a, List.mem_cons_self _ _, rfl⟩
          · exact Or.inl hin
        · obtain ⟨e', he', hκ'⟩ := hout
          exact Or.inr ⟨e', List.mem_cons_of_mem _ he', hκ'⟩

/-! ## Lexicon facts (decided over the concrete tables) -/

theorem structures_variants_nonempty :
    ∀ cv ∈ STRUCTURES, ∀ v ∈ cv.2, (strLower v).data ≠ [] := by decide

theorem structures_no_dup_variants :
    ∀ cv1 ∈ STRUCTURES, ∀ v1 ∈ cv1.2, ∀ cv2 ∈ STRUCTURES, ∀ v2 ∈ cv2.2,
      strLower v1 = strLower v2 → cv1 = cv2 ∧ v1 = v2 := by decide

/-- The raw (pre-dedup) match list of `extractByLexicon`. -/
def lexiconFound (lexicon : List (String × List String)) (tag : String)
    (text_lower : List Char) : List Occurrence :=
  lexicon.flatMap (fun cv =>
    cv.2.flatMap (fun variant =>
      let occs := findOccurrences (strLower variant).data text_lower
      if occs ≠ [] then
        occs.map (fun p => ⟨variant, tag, cv.1, p⟩)
      else []))

theorem extractByLexicon_def (lexicon : List (String × List String))
    (tag : String) (text : String) :
    extractByLexicon lexicon tag text
      = dedupOccs [] (lexiconFound lexicon tag (strLower text).data) := rfl

theorem mem_lexiconFound {lexicon : List (String × List String)} {tag : String}
    {text_lower : List Char} {e : Occurrence}
    (he : e ∈ lexiconFound lexicon tag text_lower) :
    ∃ cv ∈ lexicon, ∃ v ∈ cv.2, ∃ p ∈ findOccurrences (strLower v).data text_lower,
      e = ⟨v, tag, cv.1, p⟩ := by
  unfold lexiconFound at he
  rw [List.mem_flatMap] at he
  obtain ⟨cv, hcv, he⟩ := he
  rw [List.mem_flatMap] at he
  obtain ⟨v, hv, he⟩ := he
  by_cases hne : findOccurrences (strLower v).data text_lower ≠ []
  · rw [if_pos hne] at he
    rw [List.mem_map] at he
    obtain ⟨p, hp, he⟩ := he
    exact ⟨cv, hcv, v, hv, p, hp, he.symm⟩
  · rw [if_neg hne] at he
    simp at he

/-- C5.  Structure extraction is complete over the lexicon with
correct offsets: whenever the lowercased variant of a lexicon entry
(category, variant) occurs as a substring of the lowercased text,
`extract_structures` returns an occurrence carrying exactly that
variant text and category whose `position` is a position at which the
variant occurs in the text (character-wise, identical indices in the
original and lowercased text). -/
theorem structures_extraction_complete (T : String) (cat v : String)
    (vs : List String) (hcv : (cat, vs) ∈ STRUCTURES) (hv : v ∈ vs)
    (hocc : ∃ p, (strLower v).data <+: ((strLower T).data.drop p)) :
    ∃ e ∈ extract_structures T, e.entity = v ∧ e.category = cat ∧
      (strLower v).data <+: ((strLower T).data.drop e.position) := by
  have hpat : (strLower v).data ≠ [] :=
    structures_variants_nonempty (cat, vs) hcv v hv
  have hne : findOccurrences (strLower v).data (strLower T).data ≠ [] := by
    intro hemp
    obtain ⟨p, hp⟩ := hocc
    exact findFromAux_complete hpat _ _ 0 (Nat.le_refl _) hemp p hp
  obtain ⟨p0, hp0⟩ := List.exists_mem_of_ne_nil _ hne
  have hfound : (⟨v, "Structure", cat, p0⟩ : Occurrence)
      ∈ lexiconFound STRUCTURES "Structure" (strLower T).data := by
    unfold lexiconFound
    rw [List.mem_flatMap]
    refine ⟨(cat, vs), hcv, ?_⟩
    rw [List.mem_flatMap]
    refine ⟨v, hv, ?_⟩
    rw [if_pos hne, List.mem_map]
    exact ⟨p0, hp0, rfl⟩
  have hcov := dedupOccs_covers _ [] (strLower v, p0)
    ⟨⟨v, "Structure", cat, p0⟩, hfound, rfl⟩
  rcases hcov with hin | ⟨e, hemem, hkey⟩
  · simp at hin
  · have hel : e ∈ lexiconFound STRUCTURES "Structure" (strLower T).data :=
      dedupOccs_subset _ [] e hemem
    obtain ⟨cv', hcv', v', hv', p', hp', he⟩ := mem_lexiconFound hel
    have hkey' : (strLower v', p') = (strLower v, p0) := by
      rw [he] at hkey
      exact hkey
    have hlow : strLower v' = strLower v := (Prod.mk.injEq _ _ _ _ ▸ hkey').1
    obtain ⟨hcveq, hveq⟩ :=
      structures_no_dup_variants cv' hcv' v' hv' (cat, vs) hcv v hv hlow
    have hpat' : (strLower v').data ≠ [] :=
      structures_variants_nonempty cv' hcv' v' hv'
    obtain ⟨j, hj, hpre⟩ := findFromAux_sound hpat' _ _ _ p' hp'
    refine ⟨e, ?_, ?_, ?_, ?_⟩
    · exact hemem
    · rw [he, hveq]
    · rw [he]
      have : cv'.1 = cat := by rw [hcveq]
      exact this
    · rw [he]
      show (strLower v).data <+: ((strLower T).data.drop p')
      have hj0 : p' = j := by omega
      rw [hj0, ← hveq]
      exact hpre

/-- C5, witness: the variant "spar cap" of category "spar" occurs (case
insensitively) at offset 2 of "A Spar Cap is provided", and
`extract_structures` returns a matching occurrence. -/
theorem structures_extraction_complete_witness :
    ∃ e ∈ extract_structures "A Spar Cap is provided", e.entity = "spar cap" ∧
      e.category = "spar" ∧
      (strLower "spar cap").data
        <+: ((strLower "A Spar Cap is provided").data.drop e.position) :=
  structures_extraction_complete "A Spar Cap is provided" "spar" "spar cap"
    ["spar", "viga principal", "main spar", "spar cap", "larguero", "beam"]
    (by decide) (by decide) ⟨2, by decide⟩

/-- C4.  Requirement extraction reads only the title+abstract view:
whatever the requirement extractor does, two patent records agreeing
on `title` and `abstract` — and differing arbitrarily in `claims` and
`description` — yield identical Requirements lists.  In particular a
requirement phrase present only in the description can never surface
as a Requirement. -/
theorem requirements_from_title_abstract_only {α β : Type}
    (extract_requirements : String → List α)
    (extract_functions : String → List β) (p1 p2 : PatentRecord)
    (ht : p1.title = p2.title) (ha : p1.abstract = p2.abstract) :
    (extract_from_patent extract_requirements extract_functions p1).R
      = (extract_from_patent extract_requirements extract_functions p2).R := by
  show extract_requirements (p1.abstract.getD "" ++ " " ++ p1.title.getD "")
    = extract_requirements (p2.abstract.getD "" ++ " " ++ p2.title.getD "")
  rw [ht, ha]

/-- C4, witness: two records sharing title and abstract, one with a
requirement phrase only in its description (and extra claims), produce
the same Requirements list under an extractor that records its whole
input. -/
theorem requirements_from_title_abstract_only_witness :
    (extract_from_patent (fun s => [s]) (fun s => [s])
        ⟨some "P1", some "Wind turbine blade", some "An improved blade",
         some ["a claim"],
         some "designed to improve the efficiency of the blade"⟩).R
      = (extract_from_patent (fun s => [s]) (fun s => [s])
        ⟨some "P1", some "Wind turbine blade", some "An improved blade",
         none, none⟩).R :=
  requirements_from_title_abstract_only (fun s => [s]) (fun s => [s])
    ⟨some "P1", some "Wind turbine blade", some "An improved blade",
     some ["a claim"], some "designed to improve the efficiency of the blade"⟩
    ⟨some "P1", some "Wind turbine blade", some "An improved blade",
     none, none⟩ rfl rfl

/-- C6.  Extraction is total on missing fields: `extract_from_patent`
treats an absent title/abstract/description as the empty string and
absent claims as the empty list (so it never fails on them), and an
entity kind producing no matches yields a valid empty list with zero
counts, not an error. -/
theorem extraction_total_on_missing_fields {α β : Type}
    (extract_requirements : String → List α)
    (extract_functions : String → List β) (pd : PatentRecord) :
    (extract_from_patent extract_requirements extract_functions pd
      = extract_from_patent extract_requirements extract_functions
          ⟨pd.patent_id, some (pd.title.getD ""), some (pd.abstract.getD ""),
           some (pd.claims.getD []), some (pd.description.getD "")⟩) ∧
    (let r := extract_from_patent (fun _ => ([] : List Unit))
        (fun _ => ([] : List Unit)) ⟨none, none, none, none, none⟩
     r.R = [] ∧ r.F = [] ∧ r.S = [] ∧ r.L = [] ∧ r.total_entities = 0 ∧
     r.R_count = 0 ∧ r.F_count = 0 ∧ r.S_count = 0 ∧ r.L_count = 0) :=
  ⟨rfl, by decide⟩

/-! ## Similarity analyzer (`similarity_analyzer.py`)

A per-patent subgraph as loaded from the pickled PKG: a node table
(id, attributes) and an edge table ((source, target), relation).
Python float arithmetic is embedded as exact real arithmetic. -/

structure PGraph where
  nodes : List (String × NodeAttrs)
  edges : List ((String × String) × String)

/-- `get_entity_labels`: the set of non-empty normalized
(lowercased, stripped) node labels. -/
def entityLabels (g : PGraph) : Finset String :=
  g.nodes.foldr (fun n acc =>
    let l := strStrip (strLower n.2.label)
    if l ≠ "" then insert l acc else acc) ∅

/-- Keys of the `get_entity_types` count dict: the non-empty node
types that occur. -/
def typeKeys (g : PGraph) : Finset String :=
  g.nodes.foldr (fun n acc =>
    if n.2.type ≠ "" then insert n.2.type acc else acc) ∅

/-- Value of the `get_entity_types` count dict at a key. -/
def typeCount (g : PGraph) (t : String) : ℕ :=
  (g.nodes.filter (fun n => n.2.type = t)).length

/-- Keys of the `get_relation_types` count dict. -/
def relKeys (g : PGraph) : Finset String :=
  g.edges.foldr (fun e acc =>
    if e.2 ≠ "" then insert e.2 acc else acc) ∅

def relCount (g : PGraph) (r : String) : ℕ :=
  (g.edges.filter (fun e => e.2 = r)).length

/-- `jaccard_similarity`: |A ∩ B| / |A ∪ B|, defined as 0 when the
union is empty. -/
noncomputable def jaccard_similarity (set1 set2 : Finset String) : ℝ :=
  if (set1 ∪ set2).card = 0 then 0
  else ((set1 ∩ set2).card : ℝ) / ((set1 ∪ set2).card : ℝ)

/-- `cosine_similarity` over sparse count dicts (keys, value
function): the dot product iterates over the first dict's keys with
`vec2.get(k, 0)`; result is 0 if either magnitude is 0. -/
noncomputable def cosine_similarity (k1 : Finset String) (v1 : String → ℕ)
    (k2 : Finset String) (v2 : String → ℕ) : ℝ :=
  let dot : ℝ := ∑ k ∈ k1, (v1 k : ℝ) * (if k ∈ k2 then (v2 k : ℝ) else 0)
  let magnitude1 := Real.sqrt (∑ k ∈ k1, (v1 k : ℝ) ^ 2)
  let magnitude2 := Real.sqrt (∑ k ∈ k2, (v2 k : ℝ) ^ 2)
  if magnitude1 = 0 ∨ magnitude2 = 0 then 0
  else dot / (magnitude1 * magnitude2)

/-- The guarded normalized size difference used by
`calculate_similarity`: `abs(a - b) / max(a, b) if max(a, b) > 0 else 0`. -/
noncomputable def sizeDiff (a b : ℕ) : ℝ :=
  if max a b > 0 then |(a : ℝ) - (b : ℝ)| / (max a b : ℝ) else 0

structure SimilarityResult where
  entity_similarity : ℝ
  structure_similarity : ℝ
  relation_similarity : ℝ
  size_similarity : ℝ
  overall_similarity : ℝ

/-- `calculate_similarity` (the metric part of the returned dict). -/
noncomputable def calculate_similarity (g1 g2 : PGraph) : SimilarityResult :=
  let entity := jaccard_similarity (entityLabels g1) (entityLabels g2)
  let structure_sim :=
    cosine_similarity (typeKeys g1) (typeCount g1) (typeKeys g2) (typeCount g2)
  let relation :=
    cosine_similarity (relKeys g1) (relCount g1) (relKeys g2) (relCount g2)
  let node_diff := sizeDiff g1.nodes.length g2.nodes.length
  let edge_diff := sizeDiff g1.edges.length g2.edges.length
  let size := 1 - ((node_diff + edge_diff) / 2)
  { entity_similarity := entity
    structure_similarity := structure_sim
    relation_similarity := relation
    size_similarity := size
    overall_similarity :=
      0.4 * entity + 0.2 * structure_sim + 0.2 * relation + 0.2 * size }

theorem jaccard_symm (s1 s2 : Finset String) :
    jaccard_similarity s1 s2 = jaccard_similarity s2 s1 := by
  unfold jaccard_similarity
  rw [Finset.union_comm, Finset.inter_comm]

theorem cosine_dot_inter (k1 : Finset String) (v1 : String → ℕ)
    (k2 : Finset String) (v2 : String → ℕ) :
    (∑ k ∈ k1, (v1 k : ℝ) * (if k ∈ k2 then (v2 k : ℝ) else 0))
      = ∑ k ∈ k1 ∩ k2, (v1 k : ℝ) * (v2 k : ℝ) := by
  rw [← Finset.sum_ite_mem]
  congr 1
  funext k
  by_cases h : k ∈ k2 <;> simp [h]

theorem cosine_symm (k1 : Finset String) (v1 : String → ℕ)
    (k2 : Finset String) (v2 : String → ℕ) :
    cosine_similarity k1 v1 k2 v2 = cosine_similarity k2 v2 k1 v1 := by
  unfold cosine_similarity
  rw [cosine_dot_inter, cosine_dot_inter]
  have hdot : ∑ k ∈ k2 ∩ k1, (v2 k : ℝ) * (v1 k : ℝ)
      = ∑ k ∈ k1 ∩ k2, (v1 k : ℝ) * (v2 k : ℝ) := by
    rw [Finset.inter_comm]
    exact Finset.sum_congr rfl fun k _ => mul_comm _ _
  rw [hdot]
  by_cases h1 : Real.sqrt (∑ k ∈ k1, (v1 k : ℝ) ^ 2) = 0 <;>
    by_cases h2 : Real.sqrt (∑ k ∈ k2, (v2 k : ℝ) ^ 2) = 0 <;>
    simp [h1, h2, mul_comm]

theorem sizeDiff_symm (a b : ℕ) : sizeDiff a b = sizeDiff b a := by
  unfold sizeDiff
  rw [Nat.max_comm, abs_sub_comm, max_comm (a : ℝ) (b : ℝ)]

/-- C7.  Pairwise similarity is symmetric: the entity (Jaccard),
structure (cosine over kind counts), relation (cosine over relation
counts) and size sub-metrics, and the weighted overall score, computed
by `calculate_similarity` all coincide for (A, B) and (B, A). -/
theorem similarity_symmetric (g1 g2 : PGraph) :
    (calculate_similarity g1 g2).entity_similarity
        = (calculate_similarity g2 g1).entity_similarity ∧
    (calculate_similarity g1 g2).structure_similarity
        = (calculate_similarity g2 g1).structure_similarity ∧
    (calculate_similarity g1 g2).relation_similarity
        = (calculate_similarity g2 g1).relation_similarity ∧
    (calculate_similarity g1 g2).size_similarity
        = (calculate_similarity g2 g1).size_similarity ∧
    (calculate_similarity g1 g2).overall_similarity
        = (calculate_similarity g2 g1).overall_similarity := by
  unfold calculate_similarity
  simp only
  refine ⟨jaccard_symm _ _, cosine_symm _ _ _ _, cosine_symm _ _ _ _, ?_, ?_⟩
  · rw [sizeDiff_symm g1.nodes.length, sizeDiff_symm g1.edges.length]
  · rw [jaccard_symm (entityLabels g1), cosine_symm (typeKeys g1),
      cosine_symm (relKeys g1), sizeDiff_symm g1.nodes.length,
      sizeDiff_symm g1.edges.length]

/-! ## Feature engine (`kmeans_classifier.py`, `extract_features`) -/

/-- Degree of a node in the directed graph as networkx reports it
(in-degree + out-degree over the unique (source, target) edges). -/
def nodeDegree (g : PGraph) (n : String) : ℕ :=
  (g.edges.filter (fun e => e.1.1 = n)).length +
  (g.edges.filter (fun e => e.1.2 = n)).length

def listMax : List ℝ → ℝ
  | [] => 0
  | x :: xs => xs.foldl max x

/-- Merge the component classes containing u and v (u, v already have
singleton classes from the node initialisation). -/
def findClass (classes : List (List String)) (x : String) :
    List String × List (List String) :=
  match classes with
  | [] => ([x], [])
  | c :: rest =>
    if x ∈ c then (c, rest)
    else
      let r := findClass rest x
      (r.1, c :: r.2)

def mergeEdgeComp (classes : List (List String)) (u v : String) :
    List (List String) :=
  let ru := findClass classes u
  if v ∈ ru.1 then ru.1 :: ru.2
  else
    let rv := findClass ru.2 v
    (ru.1 ++ rv.1) :: rv.2

/-- `nx.number_connected_components(graph.to_undirected())`: start
from singleton classes (one per node) and merge along each edge. -/
def numComponents (g : PGraph) : ℕ :=
  (g.edges.foldl (fun cls e => mergeEdgeComp cls e.1.1 e.1.2)
    (g.nodes.map (fun n => [n.1]))).length

/-- `extract_features` for one patent subgraph: the 20-dimensional
feature vector (kind counts, kind ratios, relation counts, topology,
degree statistics, component count, degree centralization). -/
noncomputable def extract_features (g : PGraph) : List ℝ :=
  let countR := (g.nodes.filter (fun n => n.2.type = "R")).length
  let countF := (g.nodes.filter (fun n => n.2.type = "F")).length
  let countS := (g.nodes.filter (fun n => n.2.type = "S")).length
  let countL := (g.nodes.filter (fun n => n.2.type = "L")).length
  let total_nodes := countR + countF + countS + countL
  let ratios : List ℝ :=
    if total_nodes > 0 then
      [(countR : ℝ) / (total_nodes : ℝ), (countF : ℝ) / (total_nodes : ℝ),
       (countS : ℝ) / (total_nodes : ℝ), (countL : ℝ) / (total_nodes : ℝ)]
    else [0, 0, 0, 0]
  let cntAddresses := (g.edges.filter (fun e => e.2 = "addresses")).length
  let cntUses := (g.edges.filter (fun e => e.2 = "uses")).length
  let cntLocated := (g.edges.filter (fun e => e.2 = "located_at")).length
  let cntOccurs := (g.edges.filter (fun e => e.2 = "occurs_at")).length
  let num_nodes := g.nodes.length
  let num_edges := g.edges.length
  let density : ℝ :=
    if num_nodes > 1 then
      (num_edges : ℝ) / ((num_nodes : ℝ) * ((num_nodes : ℝ) - 1))
    else 0
  let degrees : List ℝ := g.nodes.map (fun n => (nodeDegree g n.1 : ℝ))
  let degreeStats : List ℝ :=
    if num_nodes > 0 then
      let mean := degrees.sum / (num_nodes : ℝ)
      [mean, listMax degrees,
       Real.sqrt ((degrees.map (fun d => (d - mean) ^ 2)).sum / (num_nodes : ℝ))]
    else [0, 0, 0]
  let centralization : ℝ :=
    if num_nodes > 1 then
      let centrality := g.nodes.map
        (fun n => (nodeDegree g n.1 : ℝ) / ((num_nodes : ℝ) - 1))
      let max_centrality := if centrality ≠ [] then listMax centrality else 0
      let sum_diff := (centrality.map (fun c => max_centrality - c)).sum
      let max_possible := (num_nodes - 1) * (num_nodes - 2)
      if max_possible > 0 then sum_diff / (max_possible : ℝ) else 0
    else 0
  [(countR : ℝ), (countF : ℝ), (countS : ℝ), (countL : ℝ)] ++ ratios ++
  [(cntAddresses : ℝ), (cntUses : ℝ), (cntLocated : ℝ), (cntOccurs : ℝ)] ++
  [(num_nodes : ℝ), (num_edges : ℝ), density] ++ degreeStats ++
  [(numComponents g : ℝ)] ++ [centralization]

/-- C8.  All division-by-zero paths are guarded and default to 0: for
zero-node (hence zero-edge) patent subgraphs, the Jaccard entity
similarity (empty union), the cosine structure and relation
similarities (zero magnitude), and the guarded normalized node/edge
size differences (zero max counts) all return 0 rather than raising,
and the feature vector's ratio, density, degree-statistic and
centralization entries (indeed all 20 entries) are 0. -/
theorem zero_node_degenerate_values (g1 g2 : PGraph)
    (hn1 : g1.nodes = []) (he1 : g1.edges = [])
    (hn2 : g2.nodes = []) (he2 : g2.edges = []) :
    (calculate_similarity g1 g2).entity_similarity = 0 ∧
    (calculate_similarity g1 g2).structure_similarity = 0 ∧
    (calculate_similarity g1 g2).relation_similarity = 0 ∧
    sizeDiff g1.nodes.length g2.nodes.length = 0 ∧
    sizeDiff g1.edges.length g2.edges.length = 0 ∧
    extract_features g1
      = [0, 0, 0, 0, 0, 0, 0, 0, 0, 0, 0, 0, 0, 0, 0, 0, 0, 0, 0, 0] := by
  have hlab1 : entityLabels g1 = ∅ := by rw [entityLabels, hn1]; rfl
  have hlab2 : entityLabels g2 = ∅ := by rw [entityLabels, hn2]; rfl
  have htk1 : typeKeys g1 = ∅ := by rw [typeKeys, hn1]; rfl
  have hrk1 : relKeys g1 = ∅ := by rw [relKeys, he1]; rfl
  refine ⟨?_, ?_, ?_, ?_, ?_, ?_⟩
  · show jaccard_similarity (entityLabels g1) (entityLabels g2) = 0
    rw [hlab1, hlab2]
    simp [jaccard_similarity]
  · show cosine_similarity (typeKeys g1) (typeCount g1)
      (typeKeys g2) (typeCount g2) = 0
    rw [cosine_similarity, htk1]
    simp
  · show cosine_similarity (relKeys g1) (relCount g1)
      (relKeys g2) (relCount g2) = 0
    rw [cosine_similarity, hrk1]
    simp
  · rw [hn1, hn2]
    simp [sizeDiff]
  · rw [he1, he2]
    simp [sizeDiff]
  · rw [extract_features, hn1, he1]
    simp [numComponents, hn1, he1]

/-- C8, witness: at the concrete empty subgraphs all similarity
sub-metric divisions default to 0 and the feature vector is all
zeros. -/
theorem zero_node_degenerate_values_witness :
    (calculate_similarity ⟨[], []⟩ ⟨[], []⟩).entity_similarity = 0 ∧
    (calculate_similarity ⟨[], []⟩ ⟨[], []⟩).structure_similarity = 0 ∧
    (calculate_similarity ⟨[], []⟩ ⟨[], []⟩).relation_similarity = 0 ∧
    sizeDiff (PGraph.nodes ⟨[], []⟩).length (PGraph.nodes ⟨[], []⟩).length = 0 ∧
    sizeDiff (PGraph.edges ⟨[], []⟩).length (PGraph.edges ⟨[], []⟩).length = 0 ∧
    extract_features ⟨[], []⟩
      = [0, 0, 0, 0, 0, 0, 0, 0, 0, 0, 0, 0, 0, 0, 0, 0, 0, 0, 0, 0] :=
  zero_node_degenerate_values ⟨[], []⟩ ⟨[], []⟩ rfl rfl rfl rfl

/-! ## CPC taxonomy matcher (`cpc_taxonomy.py`)

The static taxonomy table, the inverse code index, and the
categorization functions.  Python float weights are embedded as exact
rationals. -/

structure CodeInfo where
  descripcion : String
  peso : ℚ
deriving Repr, DecidableEq

structure CategoryData where
  nombre : String
  descripcion : String
  palabras_clave : List String
  codigos : List (String × CodeInfo)
deriving Repr, DecidableEq

def CPC_TAXONOMY : List (String × CategoryData) :=
  [("perfil_aerodinamico",
    { nombre := "Perfil Aerodinámico"
      descripcion := "Forma general, perfil y características aerodinámicas de la pala"
      palabras_clave := ["aerodynamic", "airfoil", "profile", "lift", "drag", "rotor shape"]
      codigos :=
        [("F03D1/0608", ⟨"Aerodynamic shape of the rotor", 1⟩),
    ("F03D1/0633", ⟨"Aerodynamic shape of the blades", 1⟩),
    ("F03D1/0641", ⟨"Aerodynamic profile (blade section profile)", 1⟩),
    ("F03D1/0625", ⟨"Aerodynamic shape of the complete rotor", mkRat 9 10⟩),
    ("F03D1/06", ⟨"Rotors characterised by their aerodynamic shape", mkRat 9 10⟩),
    ("F03D7/022", ⟨"Adjusting aerodynamic properties of the blades", mkRat 4 5⟩),
    ("F05B2240/231", ⟨"Blades driven by aerodynamic lift effects", mkRat 4 5⟩),
    ("F05B2240/232", ⟨"Blades driven by drag", mkRat 7 10⟩),
    ("F05B2240/301", ⟨"Cross-section characteristics", mkRat 9 10⟩),
    ("F05B2240/303", ⟨"Details of the leading edge", mkRat 9 10⟩),
    ("F05B2240/304", ⟨"Details of the trailing edge", mkRat 9 10⟩),
    ("F05B2240/3042", ⟨"Serrated trailing edge", mkRat 4 5⟩),
    ("F05B2240/307", ⟨"Blade tip (winglets)", mkRat 9 10⟩)] }),
   ("geometria_2d",
    { nombre := "Geometría 2D"
      descripcion := "Características geométricas bidimensionales de secciones de pala"
      palabras_clave := ["cross-section", "profile", "shape", "2D", "section"]
      codigos :=
        [("F05B2250/11", ⟨"Triangular geometry", 1⟩),
    ("F05B2250/12", ⟨"Rectangular geometry", 1⟩),
    ("F05B2250/121", ⟨"Square geometry", mkRat 9 10⟩),
    ("F05B2250/13", ⟨"Trapezoidal geometry", 1⟩),
    ("F05B2250/131", ⟨"Polygonal geometry", mkRat 9 10⟩),
    ("F05B2250/14", ⟨"Elliptical geometry", 1⟩),
    ("F05B2250/141", ⟨"Circular geometry", mkRat 9 10⟩),
    ("F05B2250/15", ⟨"Spiral geometry", mkRat 4 5⟩),
    ("F05B2250/16", ⟨"Parabolic geometry", mkRat 9 10⟩),
    ("F05B2250/17", ⟨"Hyperbolic geometry", mkRat 4 5⟩),
    ("F05B2250/181", ⟨"Ridged pattern", mkRat 7 10⟩),
    ("F05B2250/182", ⟨"Crenellated/notched pattern", mkRat 7 10⟩),
    ("F05B2250/183", ⟨"Zigzag pattern", mkRat 7 10⟩),
    ("F05B2250/184", ⟨"Sinusoidal pattern", mkRat 4 5⟩),
    ("F05B2250/191", ⟨"Perforated", mkRat 3 5⟩),
    ("F05B2250/192", ⟨"Beveled", mkRat 7 10⟩)] }),
   ("geometria_3d",
    { nombre := "Geometría 3D"
      descripcion := "Características geométricas tridimensionales de la pala completa"
      palabras_clave := ["3D", "volume", "shape", "twist", "taper", "span"]
      codigos :=
        [("F05B2250/21", ⟨"Pyramidal shape", mkRat 7 10⟩),
    ("F05B2250/22", ⟨"Parallelepipedic shape", mkRat 7 10⟩),
    ("F05B2250/23", ⟨"Prismatic shape", mkRat 4 5⟩),
    ("F05B2250/231", ⟨"Cylindrical shape", mkRat 4 5⟩),
    ("F05B2250/232", ⟨"Conical shape", mkRat 4 5⟩),
    ("F05B2250/24", ⟨"Ellipsoidal shape", mkRat 4 5⟩),
    ("F05B2250/241", ⟨"Spherical shape", mkRat 7 10⟩),
    ("F05B2250/25", ⟨"Helical shape", mkRat 9 10⟩),
    ("F05B2250/26", ⟨"Paraboloidal shape", mkRat 4 5⟩),
    ("F05B2250/27", ⟨"Hyperboloidal shape", mkRat 7 10⟩),
    ("F05B2250/291", ⟨"Hollowed structure", mkRat 4 5⟩),
    ("F05B2250/292", ⟨"Tapered structure", mkRat 9 10⟩)] }),
   ("geometria_forma",
    { nombre := "Características de Forma"
      descripcion := "Propiedades generales de forma y curvatura"
      palabras_clave := ["curved", "symmetric", "asymmetric", "shape", "form"]
      codigos :=
        [("F05B2250/70", ⟨"General shape characteristics", mkRat 4 5⟩),
    ("F05B2250/71", ⟨"Curved shape", mkRat 9 10⟩),
    ("F05B2250/711", ⟨"Convex curvature", mkRat 4 5⟩),
    ("F05B2250/712", ⟨"Concave curvature", mkRat 4 5⟩),
    ("F05B2250/713", ⟨"Inflexed shape", mkRat 7 10⟩),
    ("F05B2250/72", ⟨"Symmetric shape", mkRat 4 5⟩),
    ("F05B2250/73", ⟨"Asymmetric shape", mkRat 4 5⟩)] }),
   ("estructura_superficie",
    { nombre := "Estructura y Superficie"
      descripcion := "Elementos constructivos y características de superficie de la pala"
      palabras_clave := ["structure", "surface", "texture", "shell", "spar", "web", "skin"]
      codigos :=
        [("F03D1/0675", ⟨"Blade constructional elements", 1⟩),
    ("F03D1/0683", ⟨"Blades with outer shell and inner structure (sandwich)", 1⟩),
    ("F03D1/0691", ⟨"Segmented blades (longitudinal)", mkRat 9 10⟩),
    ("F03D7/0236", ⟨"Change of active surface (folding)", mkRat 4 5⟩),
    ("F05B2240/32", ⟨"Blades with rough surfaces", mkRat 7 10⟩),
    ("F05B2240/122", ⟨"Turbulators/flow-altering devices", mkRat 4 5⟩),
    ("F05B2240/302", ⟨"Segmented or sectional blades", mkRat 9 10⟩),
    ("F05B2240/305", ⟨"Flaps, slats or spoilers", mkRat 9 10⟩),
    ("F05B2240/3052", ⟨"Adjustable flaps/slats", mkRat 4 5⟩),
    ("F05B2240/306", ⟨"Surface measures", mkRat 7 10⟩),
    ("F05B2240/3062", ⟨"Vortex generators", mkRat 9 10⟩),
    ("F05B2250/60", ⟨"Surface texture/structure", mkRat 4 5⟩),
    ("F05B2250/61", ⟨"Corrugated surface", mkRat 7 10⟩),
    ("F05B2250/611", ⟨"Undulated surface", mkRat 7 10⟩),
    ("F05B2250/62", ⟨"Smooth surface", mkRat 3 5⟩),
    ("F05B2250/621", ⟨"Polished surface", mkRat 3 5⟩),
    ("F05B2250/283", ⟨"Honeycomb structure", mkRat 9 10⟩)] }),
   ("materiales",
    { nombre := "Materiales"
      descripcion := "Materiales de fabricación de palas"
      palabras_clave := ["material", "composite", "fiber", "carbon", "glass", "polymer", "resin"]
      codigos :=
        [("F05B2280/6003", ⟨"Composites/fibre-reinforced materials", 1⟩),
    ("F05B2280/6013", ⟨"Fibres", mkRat 9 10⟩),
    ("F05B2280/6001", ⟨"Fabrics", mkRat 4 5⟩),
    ("F05B2280/6002", ⟨"Woven fabrics", mkRat 4 5⟩),
    ("F05B2280/4003", ⟨"Synthetic polymers/plastics", mkRat 4 5⟩),
    ("F05B2280/2006", ⟨"Carbon/graphite", 1⟩),
    ("F05B2280/2001", ⟨"Glass fiber", 1⟩),
    ("F05B2280/6011", ⟨"Coating materials", mkRat 7 10⟩),
    ("F05B2280/6012", ⟨"Foam materials", mkRat 7 10⟩),
    ("F05B2280/6015", ⟨"Resin", mkRat 9 10⟩),
    ("F05B2280/4004", ⟨"Rubber", mkRat 3 5⟩),
    ("F05B2280/10304", ⟨"Titanium", mkRat 7 10⟩),
    ("F05B2280/1021", ⟨"Aluminium", mkRat 7 10⟩)] }),
   ("manufactura",
    { nombre := "Manufactura"
      descripcion := "Procesos de fabricación y ensamblaje de palas"
      palabras_clave := ["manufacturing", "process", "assembly", "molding", "casting", "welding"]
      codigos :=
        [("F05B2230/21", ⟨"Casting process", mkRat 4 5⟩),
    ("F05B2230/23", ⟨"Permanently joining parts", mkRat 9 10⟩),
    ("F05B2230/232", ⟨"Welding", mkRat 4 5⟩),
    ("F05B2230/234", ⟨"Laser welding", mkRat 7 10⟩),
    ("F05B2230/237", ⟨"Brazing", mkRat 3 5⟩),
    ("F05B2230/50", ⟨"Building in particular ways", mkRat 4 5⟩),
    ("F05B2230/60", ⟨"Assembly methods", mkRat 9 10⟩),
    ("F05B2230/80", ⟨"Repairing/retrofitting/upgrading", mkRat 4 5⟩),
    ("F05B2230/90", ⟨"Coating/Surface treatment", mkRat 7 10⟩),
    ("F05B2230/31", ⟨"Layer deposition", mkRat 7 10⟩)] }),
   ("control_ajuste",
    { nombre := "Control y Ajuste"
      descripcion := "Sistemas de control y ajuste de palas"
      palabras_clave := ["control", "pitch", "adjustment", "actuator", "sensor", "feedback"]
      codigos :=
        [("F03D7/0224", ⟨"Controlling blade pitch", 1⟩),
    ("F03D7/024", ⟨"Individual blade control", 1⟩),
    ("F03D7/0232", ⟨"Control of flaps/slats", mkRat 9 10⟩),
    ("F05B2260/70", ⟨"Adjusting angle of incidence/attack", mkRat 9 10⟩),
    ("F05B2260/72", ⟨"Turning around axis parallel to rotor", mkRat 4 5⟩),
    ("F05B2260/74", ⟨"Turning around axis perpendicular to rotor", mkRat 4 5⟩),
    ("F05B2240/31", ⟨"Blades of changeable form/shape", mkRat 9 10⟩),
    ("F05B2240/311", ⟨"Flexible or elastic blades", mkRat 4 5⟩),
    ("F05B2240/312", ⟨"Blades capable of being reefed", mkRat 7 10⟩),
    ("F05B2240/313", ⟨"Adjustable flow intercepting area", mkRat 4 5⟩),
    ("F05B2270/328", ⟨"Blade pitch angle (control parameter)", mkRat 9 10⟩)] }),
   ("monitoreo_diagnostico",
    { nombre := "Monitoreo y Diagnóstico"
      descripcion := "Sistemas de monitoreo, diagnóstico y detección de fallas"
      palabras_clave := ["monitoring", "sensor", "diagnostic", "detection", "measurement", "testing"]
      codigos :=
        [("F03D17/00", ⟨"Monitoring or testing wind motors", 1⟩),
    ("F03D17/009", ⟨"Fatigue/stress monitoring", 1⟩),
    ("F03D17/010", ⟨"Wear/clearance monitoring", mkRat 9 10⟩),
    ("F03D17/012", ⟨"Vibration monitoring", mkRat 9 10⟩),
    ("F03D17/027", ⟨"Monitoring blades", 1⟩),
    ("F05B2260/80", ⟨"Diagnostics", mkRat 9 10⟩),
    ("F05B2270/808", ⟨"Strain gauges/load cells", mkRat 4 5⟩),
    ("F05B2270/334", ⟨"Vibration measurements", mkRat 4 5⟩)] }),
   ("ruido_vibraciones",
    { nombre := "Reducción de Ruido y Vibraciones"
      descripcion := "Tecnologías para reducir ruido y vibraciones"
      palabras_clave := ["noise", "vibration", "damping", "acoustic", "sound", "reduction"]
      codigos :=
        [("F03D7/0296", ⟨"Controlling to reduce noise", 1⟩),
    ("F03D80/30", ⟨"Noise reduction accessories", 1⟩),
    ("F05B2260/96", ⟨"Preventing/reducing vibration or noise", 1⟩),
    ("F05B2260/962", ⟨"Anti-noise means", mkRat 9 10⟩),
    ("F05B2260/964", ⟨"Damping means", mkRat 9 10⟩),
    ("F05B2260/966", ⟨"Correcting static/dynamic imbalance", mkRat 4 5⟩),
    ("F05B2270/333", ⟨"Noise/sound levels (parameter)", mkRat 4 5⟩)] })]


structure IndexEntry where
  categoria : String
  categoria_nombre : String
  descripcion : String
  peso : ℚ
deriving Repr, DecidableEq

/-- `build_code_index`: inverse index code → category info, built by
dict insertion over categories and codes in table order. -/
def build_code_index : List (String × IndexEntry) :=
  CPC_TAXONOMY.foldl (fun index cat =>
    cat.2.codigos.foldl (fun index cd =>
      assocSet index cd.1
        { categoria := cat.1
          categoria_nombre := cat.2.nombre
          descripcion := cd.2.descripcion
          peso := cd.2.peso }) index) []

def CODE_INDEX : List (String × IndexEntry) := build_code_index

/-- `normalize_code`: strip, uppercase, remove spaces. -/
def normalize_code (code : String) : String :=
  ⟨((stripList code.data).map Char.toUpper).filter (fun c => c ≠ ' ')⟩

/-- The prefix-fallback scan of `get_category_for_code`
(first match in index order wins). -/
def findPartialCode : List (String × IndexEntry) → String → Option IndexEntry
  | [], _ => none
  | (known, e) :: rest, code =>
    if known.data.isPrefixOf code.data || code.data.isPrefixOf known.data then
      some e
    else findPartialCode rest code

/-- `get_category_for_code`: exact lookup in the code index, then
prefix fallback in either direction. -/
def get_category_for_code (code : String) : Option IndexEntry :=
  match assocFind CODE_INDEX code with
  | some e => some e
  | none => findPartialCode CODE_INDEX code

structure CatScore where
  nombre : String
  score : ℚ
  codigos_encontrados : List (String × String × ℚ)
deriving Repr, DecidableEq

def assocUpdate (l : List (String × CatScore)) (k : String)
    (f : CatScore → CatScore) : List (String × CatScore) :=
  match l with
  | [] => []
  | (k', v) :: rest =>
    if k' = k then (k', f v) :: rest else (k', v) :: assocUpdate rest k f

/-- One step of the `categorize_patent_codes` loop. -/
def categorizeStep (st : List (String × CatScore) × List (String × IndexEntry))
    (code : String) : List (String × CatScore) × List (String × IndexEntry) :=
  let normalized := normalize_code code
  match get_category_for_code normalized with
  | none => st
  | some m =>
    let scores0 :=
      if (assocFind st.1 m.categoria).isSome then st.1
      else st.1 ++ [(m.categoria, ⟨m.categoria_nombre, 0, []⟩)]
    let scores1 := assocUpdate scores0 m.categoria (fun cs =>
      { cs with score := cs.score + m.peso
                codigos_encontrados := cs.codigos_encontrados ++
                  [(normalized, m.descripcion, m.peso)] })
    (scores1, assocSet st.2 normalized m)

/-- Stable insertion into a list sorted by descending score
(an earlier element stays before later elements of equal score),
matching Python's stable `sorted(..., reverse=True)`. -/
def insertDescByScore (x : String × CatScore) :
    List (String × CatScore) → List (String × CatScore)
  | [] => [x]
  | y :: ys =>
    if y.2.score > x.2.score then y :: insertDescByScore x ys
    else x :: y :: ys

def sortDescByScore : List (String × CatScore) → List (String × CatScore)
  | [] => []
  | x :: xs => insertDescByScore x (sortDescByScore xs)

structure CategorizeResult where
  categorias : List (String × CatScore)
  codigos_matched : List (String × IndexEntry)
  total_codigos_input : ℕ
  total_codigos_matched : ℕ
deriving Repr, DecidableEq

/-- `categorize_patent_codes`. -/
def categorize_patent_codes (patent_codes : List String) : CategorizeResult :=
  let st := patent_codes.foldl categorizeStep ([], [])
  { categorias := sortDescByScore st.1
    codigos_matched := st.2
    total_codigos_input := patent_codes.length
    total_codigos_matched := st.2.length }

unseal Rat.add in
/-- C9.  Categorizing ["F03D1/0633", "F05B2280/6003", "F03D17/00"]
against the v1 taxonomy matches the three codes exactly to the
categories perfil_aerodinamico, materiales and monitoreo_diagnostico,
each contributing its configured weight 1.0 to its category's score,
with total_codigos_matched = 3. -/
theorem taxonomy_categorization_example :
    (categorize_patent_codes
      ["F03D1/0633", "F05B2280/6003", "F03D17/00"]).total_codigos_matched = 3 ∧
    assocFind (categorize_patent_codes
        ["F03D1/0633", "F05B2280/6003", "F03D17/00"]).categorias
        "perfil_aerodinamico"
      = some ⟨"Perfil Aerodinámico", 1,
          [("F03D1/0633", "Aerodynamic shape of the blades", 1)]⟩ ∧
    assocFind (categorize_patent_codes
        ["F03D1/0633", "F05B2280/6003", "F03D17/00"]).categorias "materiales"
      = some ⟨"Materiales", 1,
          [("F05B2280/6003", "Composites/fibre-reinforced materials", 1)]⟩ ∧
    assocFind (categorize_patent_codes
        ["F03D1/0633", "F05B2280/6003", "F03D17/00"]).categorias
        "monitoreo_diagnostico"
      = some ⟨"Monitoreo y Diagnóstico", 1,
          [("F03D17/00", "Monitoring or testing wind motors", 1)]⟩ := by
  decide

end PatentCat
